import Mathlib

/-!
# hotload: double-buffered hot swap and reload target

A shallow embedding of `doublebuffer.go` and `target.go`.

* `*Buffer` pointers are addresses into `DoubleBuffer.heap`; `nil` is `none`.
* A Go run-time panic (nil dereference, index out of range, failed type
  assertion) is the result `none` of the embedded function.
* `error` values are their messages: `none` is the `nil` error.
* Goroutines are not run by the embedded functions; the ones a call starts are
  recorded (`DoubleBuffer.watchers`, `Call.go`).
-/

namespace Hotload

/-! ## doublebuffer.go -/

/-- Two's complement wrap-around of 32-bit signed arithmetic. -/
def wrap32 (x : Int) : Int := (x + 2147483648) % 4294967296 - 2147483648

/-- Go `Buffer`: the stored interface value and the `int32` borrower count. -/
structure Buffer (ι : Type) where
  Interface : ι
  ServerNum : Int
deriving DecidableEq, Repr

/-- Go `DoubleBuffer`. `buffers` holds the two `*Buffer` slots and `pos` the `int32`
index of the active one. `heap` is the store of the `Buffer` objects the pointers
refer to (address = index). `watchers` lists the retirement goroutines started by
`AddBuffer` that have not returned yet, each by the `pos` argument it captured. -/
structure DoubleBuffer (ι : Type) where
  heap : List (Buffer ι)
  buffers : Option Nat × Option Nat
  pos : Int
  watchers : List Int
deriving DecidableEq, Repr

/-- Go `NewDoubleBuffer`. -/
def NewDoubleBuffer (ι : Type) : DoubleBuffer ι :=
  { heap := [], buffers := (none, none), pos := -1, watchers := [] }

/-- The array read `db.buffers[k]`: `none` when the index is out of range (a panic),
otherwise the pointer stored in the slot. -/
def DoubleBuffer.slot {ι : Type} (db : DoubleBuffer ι) (k : Int) : Option (Option Nat) :=
  if k = 0 then some db.buffers.1 else if k = 1 then some db.buffers.2 else none

/-- The array write `db.buffers[k] = p`, for an index `k` in range. -/
def DoubleBuffer.setSlot {ι : Type} (db : DoubleBuffer ι) (k : Int) (p : Option Nat) :
    DoubleBuffer ι :=
  if k = 0 then { db with buffers := (p, db.buffers.2) }
  else if k = 1 then { db with buffers := (db.buffers.1, p) }
  else db

/-- Go `DoubleBuffer.AddBuffer`. A new `Buffer` with count 0 is allocated and put in
slot `pos`; when the other slot is not nil a retirement goroutine is started. -/
def DoubleBuffer.AddBuffer {ι : Type} (db : DoubleBuffer ι) (i : ι) (pos : Int) :
    Option String × DoubleBuffer ι :=
  if pos < 0 ∨ pos > 1 then (some "wrong pos to add buffer", db)
  else
    let db0 : DoubleBuffer ι :=
      { db with heap := db.heap ++ [{ Interface := i, ServerNum := 0 }] }
    let db1 := db0.setSlot pos (some db.heap.length)
    match db1.slot (1 - pos) with
    | some (some _) => (none, { db1 with watchers := db1.watchers ++ [pos] })
    | _ => (none, db1)

/-- Go `DoubleBuffer.Store`. The subtraction `1 - db.pos` is `int32` arithmetic; it
can overflow only for `db.pos = -2147483648`, where the wrapped and the exact
value both index out of range, so the exact value is used. -/
def DoubleBuffer.Store {ι : Type} (db : DoubleBuffer ι) (i : ι) :
    Option (Option String × DoubleBuffer ι) :=
  let finish (np : Int) : Option (Option String × DoubleBuffer ι) :=
    match db.AddBuffer i np with
    | (some e, db1) => some (some e, db1)
    | (none, db1) => some (none, { db1 with pos := np })
  if db.pos ≠ -1 then
    let np := 1 - db.pos
    match db.slot np with
    | none => none
    | some none => finish np
    | some (some p) =>
      match db.heap[p]? with
      | none => none
      | some b =>
        if b.ServerNum ≠ 0 then some (some "buffer still in used", db)
        else finish np
  else finish 0

/-- Go `DoubleBuffer.Load`: the returned pointer (`none` for nil) and the new state.
`atomic.AddInt32` wraps around. -/
def DoubleBuffer.Load {ι : Type} (db : DoubleBuffer ι) :
    Option (Option Nat × DoubleBuffer ι) :=
  if db.pos = -1 then some (none, db)
  else
    match db.slot db.pos with
    | none => none
    | some none => none
    | some (some p) =>
      match db.heap[p]? with
      | none => none
      | some b =>
        some (some p,
          { db with heap := db.heap.set p { b with ServerNum := wrap32 (b.ServerNum + 1) } })

/-- Go `Buffer.Close` on the pointer `b`, acting on the store of `Buffer` objects.
The decrement happens only for a count above 0, so it cannot overflow. -/
def Buffer.Close {ι : Type} (heap : List (Buffer ι)) (b : Option Nat) :
    Option (List (Buffer ι)) :=
  match b with
  | none => none
  | some p =>
    match heap[p]? with
    | none => none
    | some h =>
      if h.ServerNum > 0 then some (heap.set p { h with ServerNum := h.ServerNum - 1 })
      else some heap

/-- `Buffer.Close` on a handle of the double buffer. -/
def DoubleBuffer.Close {ι : Type} (db : DoubleBuffer ι) (b : Option Nat) :
    Option (DoubleBuffer ι) :=
  match Buffer.Close db.heap b with
  | none => none
  | some h => some { db with heap := h }

/-- States reachable from `NewDoubleBuffer` by `Store`, `Load` and `Close` calls that
return; `Close` may be called on any pointer. -/
inductive DoubleBuffer.Reachable {ι : Type} : DoubleBuffer ι → Prop where
  | new : DoubleBuffer.Reachable (NewDoubleBuffer ι)
  | store {db db1 : DoubleBuffer ι} (i : ι) (e : Option String) :
      DoubleBuffer.Reachable db → db.Store i = some (e, db1) → DoubleBuffer.Reachable db1
  | load {db db1 : DoubleBuffer ι} (t : Option Nat) :
      DoubleBuffer.Reachable db → db.Load = some (t, db1) → DoubleBuffer.Reachable db1
  | close {db db1 : DoubleBuffer ι} (b : Option Nat) :
      DoubleBuffer.Reachable db → db.Close b = some db1 → DoubleBuffer.Reachable db1

/-- One iteration of the loop of the retirement goroutine started by `AddBuffer`, for
the `k`-th pending goroutine, which captured the argument `pos`. It reads
`db.buffers[1-pos]` again at each iteration: a nil slot is a nil dereference (`none`);
a non-zero count sleeps and leaves the state as it is; a zero count sets the slot to
nil and the goroutine returns. With no `k`-th goroutine nothing happens. -/
def DoubleBuffer.poll {ι : Type} (db : DoubleBuffer ι) (k : Nat) : Option (DoubleBuffer ι) :=
  match db.watchers[k]? with
  | none => some db
  | some pos =>
    match db.slot (1 - pos) with
    | none => none
    | some none => none
    | some (some q) =>
      match db.heap[q]? with
      | none => none
      | some h =>
        if h.ServerNum ≠ 0 then some db
        else some { db.setSlot (1 - pos) none with watchers := db.watchers.eraseIdx k }

/-- `n` successive iterations of the `k`-th retirement goroutine. -/
def DoubleBuffer.polls {ι : Type} (db : DoubleBuffer ι) (k : Nat) : Nat → Option (DoubleBuffer ι)
  | 0 => some db
  | n + 1 =>
    match db.polls k n with
    | none => none
    | some db1 => db1.poll k

/-- States reachable from `NewDoubleBuffer` by `Store`, `Load`, `Close` and single
iterations of pending retirement goroutines, in any interleaving. -/
inductive DoubleBuffer.ReachableWatch {ι : Type} : DoubleBuffer ι → Prop where
  | new : DoubleBuffer.ReachableWatch (NewDoubleBuffer ι)
  | store {db db1 : DoubleBuffer ι} (i : ι) (e : Option String) :
      DoubleBuffer.ReachableWatch db → db.Store i = some (e, db1) →
      DoubleBuffer.ReachableWatch db1
  | load {db db1 : DoubleBuffer ι} (t : Option Nat) :
      DoubleBuffer.ReachableWatch db → db.Load = some (t, db1) →
      DoubleBuffer.ReachableWatch db1
  | close {db db1 : DoubleBuffer ι} (b : Option Nat) :
      DoubleBuffer.ReachableWatch db → db.Close b = some db1 →
      DoubleBuffer.ReachableWatch db1
  | poll {db db1 : DoubleBuffer ι} (k : Nat) :
      DoubleBuffer.ReachableWatch db → k < db.watchers.length → db.poll k = some db1 →
      DoubleBuffer.ReachableWatch db1

/-- The states of `DoubleBuffer.Reachable` that are reached without 32-bit overflow:
`Load` is called only while the borrower count of the active handle is below
2147483647. -/
inductive DoubleBuffer.ReachableNoOverflow {ι : Type} : DoubleBuffer ι → Prop where
  | new : DoubleBuffer.ReachableNoOverflow (NewDoubleBuffer ι)
  | store {db db1 : DoubleBuffer ι} (i : ι) (e : Option String) :
      DoubleBuffer.ReachableNoOverflow db → db.Store i = some (e, db1) →
      DoubleBuffer.ReachableNoOverflow db1
  | load {db db1 : DoubleBuffer ι} (t : Option Nat) :
      DoubleBuffer.ReachableNoOverflow db →
      (∀ (p : Nat) (b : Buffer ι), db.slot db.pos = some (some p) → db.heap[p]? = some b →
        b.ServerNum < 2147483647) →
      db.Load = some (t, db1) → DoubleBuffer.ReachableNoOverflow db1
  | close {db db1 : DoubleBuffer ι} (b : Option Nat) :
      DoubleBuffer.ReachableNoOverflow db → db.Close b = some db1 →
      DoubleBuffer.ReachableNoOverflow db1

/-! ## target.go -/

/-- Go `interface{}` values passed through the target: configuration, input and
output of `Process`, reload arguments. The constructors `duration` and `paths` are
the dynamic types `time.Duration` and `[]string` that `Load` asserts. -/
inductive Value where
  | nil
  | duration (d : Int)
  | paths (ps : List String)
  | other (n : Nat)
deriving DecidableEq, Repr

/-- Go `TargetType`, an `int`. -/
abbrev TargetType := Int

/-- Go constant `TargetTypePeriodic`. -/
def TargetTypePeriodic : TargetType := 1

/-- Go constant `TargetTypeListen`. -/
def TargetTypeListen : TargetType := 2

/-- Go constant `TargetTypeWatch`. -/
def TargetTypeWatch : TargetType := 3

/-- The user code behind the Go interface `HotLoader` and the `HotLoaderCreator`.
`ι` is the type of resource objects and `σ` the state the user code can read and
change (fields of the resources, clock, files). Every method is a state
transformer on `σ`; the methods return and have no access to the target. `MD5`
returns a `uint64`. -/
structure HotLoader (ι σ : Type) where
  creator : σ → ι × σ
  Init : ι → Value → σ → Option String × σ
  Process : ι → Value → σ → (Value × Option String) × σ
  MD5 : ι → σ → Nat × σ
  ReloadArgument : ι → σ → (TargetType × Value) × σ

/-- Go `Target`. The `creator` field is `HotLoader.creator`; the `event` channel
carries no data of the model and is left out. -/
structure Target (ι : Type) where
  db : DoubleBuffer ι
  ttype : TargetType
  args : Value
  success : Bool
  config : Value
  stamp : Nat
deriving DecidableEq, Repr

/-- A record of one call made by the target: on the user code, on
`DoubleBuffer.Store`, or the start of a trigger-loop goroutine. -/
inductive Call (ι : Type) where
  | creator (i : ι)
  | Init (i : ι) (config : Value)
  | Process (i : ι) (src : Value)
  | MD5 (i : ι)
  | ReloadArgument (i : ι)
  | Store (i : ι)
  | go (ttype : TargetType) (args : Value)
deriving DecidableEq, Repr

/-- A target together with the state of the user code and the calls made so far,
oldest first. -/
structure Sys (ι σ : Type) where
  target : Target ι
  env : σ
  calls : List (Call ι)
deriving DecidableEq, Repr

/-- Go `NewTarget`, with the zero values of the fields it leaves out. -/
def NewTarget (ι : Type) (config : Value) : Target ι :=
  { db := NewDoubleBuffer ι, ttype := 0, args := Value.nil, success := false,
    config := config, stamp := 0 }

/-- Go `Target.Process`: borrow, call `Process` of the borrowed resource, and run
the deferred `i.Close()`. -/
def Target.Process {ι σ : Type} (I : HotLoader ι σ) (src : Value) (s : Sys ι σ) :
    Option ((Value × Option String) × Sys ι σ) :=
  match s.target.db.Load with
  | none => none
  | some (none, _) => none
  | some (some p, db1) =>
    match db1.heap[p]? with
    | none => none
    | some b =>
      let r := I.Process b.Interface src s.env
      match db1.Close (some p) with
      | none => none
      | some db2 =>
        some (r.1, { target := { s.target with db := db2 }, env := r.2,
                     calls := s.calls ++ [Call.Process b.Interface src] })

/-- Go `Target.MD5`: borrow, call `MD5` of the borrowed resource, and run the
deferred `i.Close()`. -/
def Target.MD5 {ι σ : Type} (I : HotLoader ι σ) (s : Sys ι σ) : Option (Nat × Sys ι σ) :=
  match s.target.db.Load with
  | none => none
  | some (none, _) => none
  | some (some p, db1) =>
    match db1.heap[p]? with
    | none => none
    | some b =>
      let r := I.MD5 b.Interface s.env
      match db1.Close (some p) with
      | none => none
      | some db2 =>
        some (r.1, { target := { s.target with db := db2 }, env := r.2,
                     calls := s.calls ++ [Call.MD5 b.Interface] })

/-- Go `Target.reload`. -/
def Target.reload {ι σ : Type} (I : HotLoader ι σ) (s : Sys ι σ) :
    Option (Option String × Sys ι σ) :=
  let c := I.creator s.env
  let i := c.1
  let s1 : Sys ι σ := { s with env := c.2, calls := s.calls ++ [Call.creator i] }
  match Target.MD5 I s1 with
  | none => none
  | some (md5, s2) =>
    if md5 = 0 then some (some "0 for stamp", s2)
    else if md5 = s2.target.stamp then some (some "no data changed", s2)
    else
      let r := I.Init i s2.target.config s2.env
      let s3 : Sys ι σ :=
        { s2 with env := r.2, calls := s2.calls ++ [Call.Init i s2.target.config] }
      match r.1 with
      | some msg => some (some ("init error[" ++ msg ++ "]"), s3)
      | none =>
        match s3.target.db.Store i with
        | none => none
        | some (e1, db1) =>
          let s4 : Sys ι σ :=
            { s3 with target := { s3.target with db := db1 },
                      calls := s3.calls ++ [Call.Store i] }
          match e1 with
          | some msg => some (some ("store error[" ++ msg ++ "]"), s4)
          | none => some (none, { s4 with target := { s4.target with stamp := md5 } })

/-- Go `Target.Load`. The result of `Store` is discarded. The `switch` starts the
trigger loop of the declared type, after the type assertion on `args`; a
`ttype` outside the three constants starts nothing. The loop calls `reload` on its
triggers and is recorded as `Call.go`. -/
def Target.Load {ι σ : Type} (I : HotLoader ι σ) (s : Sys ι σ) :
    Option (Option String × Sys ι σ) :=
  let c := I.creator s.env
  let i := c.1
  let r := I.Init i s.target.config c.2
  let calls2 := s.calls ++ [Call.creator i, Call.Init i s.target.config]
  match r.1 with
  | some msg => some (some msg, { s with env := r.2, calls := calls2 })
  | none =>
    match s.target.db.Store i with
    | none => none
    | some (_, db1) =>
      let m := I.MD5 i r.2
      let a := I.ReloadArgument i m.2
      let ra := a.1
      let t1 : Target ι :=
        { s.target with db := db1, success := true, stamp := m.1, ttype := ra.1,
                        args := ra.2 }
      let calls4 := calls2 ++ [Call.Store i, Call.MD5 i, Call.ReloadArgument i]
      let started (g : List (Call ι)) : Option (Option String × Sys ι σ) :=
        some (none, { target := t1, env := a.2, calls := calls4 ++ g })
      if ra.1 = TargetTypeListen then started [Call.go ra.1 ra.2]
      else if ra.1 = TargetTypePeriodic then
        match ra.2 with
        | Value.duration _ => started [Call.go ra.1 ra.2]
        | _ => none
      else if ra.1 = TargetTypeWatch then
        match ra.2 with
        | Value.paths _ => started [Call.go ra.1 ra.2]
        | _ => none
      else started []

/-- Systems reachable from `s0` by `Process`, `MD5` and `reload` calls that return. -/
inductive Target.ReachableFrom {ι σ : Type} (I : HotLoader ι σ) (s0 : Sys ι σ) :
    Sys ι σ → Prop where
  | start : Target.ReachableFrom I s0 s0
  | process {s s1 : Sys ι σ} (src : Value) (r : Value × Option String) :
      Target.ReachableFrom I s0 s → Target.Process I src s = some (r, s1) →
      Target.ReachableFrom I s0 s1
  | md5 {s s1 : Sys ι σ} (m : Nat) :
      Target.ReachableFrom I s0 s → Target.MD5 I s = some (m, s1) →
      Target.ReachableFrom I s0 s1
  | reload {s s1 : Sys ι σ} (e : Option String) :
      Target.ReachableFrom I s0 s → Target.reload I s = some (e, s1) →
      Target.ReachableFrom I s0 s1

/-! ## Concrete states used as witnesses -/

/-- A concrete double buffer: slot 1 is active and slot 0 still holds a handle with
one borrower. -/
def busyBuffer : DoubleBuffer Nat :=
  { heap := [{ Interface := 7, ServerNum := 1 }, { Interface := 8, ServerNum := 0 }],
    buffers := (some 0, some 1), pos := 1, watchers := [1] }

/-- A concrete double buffer: slot 1 is active and the handle in slot 0 has no
borrower left. -/
def busyFree : DoubleBuffer Nat :=
  { heap := [{ Interface := 7, ServerNum := 0 }, { Interface := 8, ServerNum := 3 }],
    buffers := (some 0, some 1), pos := 1, watchers := [1] }

/-- The state `busyFree` after `Store 9`. -/
def busyFreeStored : DoubleBuffer Nat :=
  { heap := [{ Interface := 7, ServerNum := 0 }, { Interface := 8, ServerNum := 3 },
             { Interface := 9, ServerNum := 0 }],
    buffers := (some 2, some 1), pos := 0, watchers := [1, 0] }

/-- A reachable double buffer: one resource stored and borrowed once. -/
def storedBorrowed : DoubleBuffer Nat :=
  { heap := [{ Interface := 7, ServerNum := 1 }], buffers := (some 0, none), pos := 0,
    watchers := [] }

/-- A double buffer whose active handle has the largest `int32` borrower count. -/
def maxedBuffer : DoubleBuffer Nat :=
  { heap := [{ Interface := 7, ServerNum := 2147483647 }], buffers := (some 0, none),
    pos := 0, watchers := [] }

/-- A double buffer with one stored resource and no borrower. -/
def storedOnce : DoubleBuffer Nat :=
  { heap := [{ Interface := 7, ServerNum := 0 }], buffers := (some 0, none), pos := 0,
    watchers := [] }

/-- A concrete `HotLoader`. The resource `none` has a live signature, the version of
the data it watches; the resource `some k` has the fixed signature `k`. The state
is the data version and the queue of resources the factory produces next; the data
version goes up by one at each factory call. `Init` always succeeds, `Process`
copies its input and fails on a nil input. -/
def sample : HotLoader (Option Nat) (Nat × List (Option Nat)) :=
  { creator := fun e => (e.2.headD none, (e.1 + 1, e.2.tail)),
    Init := fun _ _ e => (none, e),
    Process := fun _ src e =>
      (if src = Value.nil then (Value.nil, some "nil input") else (src, none), e),
    MD5 := fun i e => (match i with | none => e.1 | some k => k, e),
    ReloadArgument := fun _ e => ((TargetTypeListen, Value.nil), e) }

/-- A system over `sample`: a new target and the resources the factory will produce. -/
def sampleSys (version : Nat) (queue : List (Option Nat)) :
    Sys (Option Nat) (Nat × List (Option Nat)) :=
  { target := NewTarget (Option Nat) Value.nil, env := (version, queue), calls := [] }

/-- A target over `sample` whose active handle (resource of signature 42) has the
borrower count `n`. -/
def borrowedSys (n : Int) : Sys (Option Nat) (Nat × List (Option Nat)) :=
  { target :=
      { db := { heap := [{ Interface := some 42, ServerNum := n }], buffers := (some 0, none),
                pos := 0, watchers := [] },
        ttype := TargetTypeListen, args := Value.nil, success := true, config := Value.nil,
        stamp := 42 },
    env := (1, []), calls := [] }

/-- A target over `sample` with resource `r` active in slot 0 with borrower count `n`,
slot 1 empty, the given stamp, and `queue` the resources the factory produces next. -/
def activeSys (r : Option Nat) (n : Int) (stamp : Nat) (queue : List (Option Nat)) :
    Sys (Option Nat) (Nat × List (Option Nat)) :=
  { target :=
      { db := { heap := [{ Interface := r, ServerNum := n }], buffers := (some 0, none),
                pos := 0, watchers := [] },
        ttype := TargetTypeListen, args := Value.nil, success := true, config := Value.nil,
        stamp := stamp },
    env := (1, queue), calls := [] }

/-- The `HotLoader` `sample` with an `Init` that fails on the resource `some 13`. -/
def samplePicky : HotLoader (Option Nat) (Nat × List (Option Nat)) :=
  { sample with
    Init := fun i _ e => (if i = some 13 then some "bad resource" else none, e) }

/-- The `HotLoader` `sample` with `ReloadArgument` returning `ra` for every resource. -/
def sampleArgs (ra : TargetType × Value) : HotLoader (Option Nat) (Nat × List (Option Nat)) :=
  { sample with ReloadArgument := fun _ e => (ra, e) }

/-- A target over `sample`: slot 1 is active with the live resource and no borrower,
slot 0 still holds the resource of signature 42 with one borrower; the stamp is 1. -/
def busySys (queue : List (Option Nat)) : Sys (Option Nat) (Nat × List (Option Nat)) :=
  { target :=
      { db := { heap := [{ Interface := some 42, ServerNum := 1 },
                         { Interface := none, ServerNum := 0 }],
                buffers := (some 0, some 1), pos := 1, watchers := [1] },
        ttype := TargetTypeListen, args := Value.nil, success := true, config := Value.nil,
        stamp := 1 },
    env := (1, queue), calls := [] }

/-- A double buffer reached without overflow: two resources stored, the first one
borrowed twice and released once. -/
def twoStored : DoubleBuffer Nat :=
  { heap := [{ Interface := 7, ServerNum := 1 }, { Interface := 8, ServerNum := 0 }],
    buffers := (some 0, some 1), pos := 1, watchers := [1] }

/-- The double buffer `storedBorrowed` after a second borrow. -/
def storedBorrowedTwice : DoubleBuffer Nat :=
  { heap := [{ Interface := 7, ServerNum := 2 }], buffers := (some 0, none), pos := 0,
    watchers := [] }

/-- The `HotLoader` `sample` with fixed signatures: the resource `some k` has the
signature `k` and the resource `none` the signature 0, whatever the data version. -/
def sampleFixed : HotLoader (Option Nat) (Nat × List (Option Nat)) :=
  { sample with MD5 := fun i e => (i.getD 0, e) }

/-- The `HotLoader` `sample` where the resource `some 5` declares the strategy
`TargetTypeWatch` with an argument that is not a `[]string`; the other resources
declare `TargetTypeListen`. -/
def sampleMixed : HotLoader (Option Nat) (Nat × List (Option Nat)) :=
  { sample with
    ReloadArgument := fun i e =>
      (if i = some 5 then (TargetTypeWatch, Value.other 1) else (TargetTypeListen, Value.nil),
        e) }

/-! ## Theorems: doublebuffer.go -/

theorem AddBuffer_ok {ι : Type} (db : DoubleBuffer ι) (i : ι) (np : Int)
    (hnp : np = 0 ∨ np = 1) :
    ∃ w, db.AddBuffer i np =
      (none, { heap := db.heap ++ [{ Interface := i, ServerNum := 0 }],
               buffers := if np = 0 then (some db.heap.length, db.buffers.2)
                          else (db.buffers.1, some db.heap.length),
               pos := db.pos, watchers := w }) := by
  rcases hnp with h | h <;> subst h <;>
    simp only [DoubleBuffer.AddBuffer, DoubleBuffer.setSlot, DoubleBuffer.slot] <;>
    norm_num <;> split <;> exact ⟨_, rfl⟩

/-- C1: when a slot is active and the complementary slot holds a handle with a
non-zero borrower count, `Store` returns the error "buffer still in used" and the
whole state (pos, both slots, every handle with its resource and count) is the one
before the call. -/
theorem Store_busy_unchanged {ι : Type} (db : DoubleBuffer ι) (i : ι) (p : Nat)
    (b : Buffer ι) (hpos : db.pos = 0 ∨ db.pos = 1)
    (hslot : db.slot (1 - db.pos) = some (some p)) (hb : db.heap[p]? = some b)
    (hn : b.ServerNum ≠ 0) :
    db.Store i = some (some "buffer still in used", db) := by
  have h1 : db.pos ≠ -1 := by rcases hpos with h | h <;> rw [h] <;> decide
  simp [DoubleBuffer.Store, h1, hslot, hb, hn]

theorem Store_busy_unchanged_witness :
    busyBuffer.Store 9 = some (some "buffer still in used", busyBuffer) :=
  Store_busy_unchanged busyBuffer 9 0 { Interface := 7, ServerNum := 1 }
    (by decide) (by decide) (by decide) (by decide)

theorem Store_finish {ι : Type} (db db1 : DoubleBuffer ι) (i : ι) (np : Int)
    (e : Option String) (hnp : np = 0 ∨ np = 1)
    (h : (match db.AddBuffer i np with
          | (some e, db1) => some (some e, db1)
          | (none, db1) => some (none, { db1 with pos := np })) = some (e, db1)) :
    e = none ∧ db1.pos = np ∧ db1.heap = db.heap ++ [{ Interface := i, ServerNum := 0 }] ∧
    db1.buffers = (if np = 0 then (some db.heap.length, db.buffers.2)
                   else (db.buffers.1, some db.heap.length)) := by
  obtain ⟨w, hw⟩ := AddBuffer_ok db i np hnp
  rw [hw] at h
  simp only [Option.some.injEq, Prod.mk.injEq] at h
  obtain ⟨h1, h2⟩ := h
  subst h2
  exact ⟨h1.symm, rfl, rfl, rfl⟩

/-- What a returning `Store` does, by cases: either the busy error with the state
unchanged, or success into the target slot. -/
theorem Store_cases {ι : Type} (db db1 : DoubleBuffer ι) (i : ι) (e : Option String)
    (h : db.Store i = some (e, db1)) :
    (e = some "buffer still in used" ∧ db1 = db ∧ (db.pos = 0 ∨ db.pos = 1) ∧
      ∃ p b, db.slot (1 - db.pos) = some (some p) ∧ db.heap[p]? = some b ∧ b.ServerNum ≠ 0) ∨
    (e = none ∧ (db.pos = -1 ∨ db.pos = 0 ∨ db.pos = 1) ∧
      db1.pos = (if db.pos = -1 then 0 else 1 - db.pos) ∧
      db1.heap = db.heap ++ [{ Interface := i, ServerNum := 0 }] ∧
      db1.buffers = (if db1.pos = 0 then (some db.heap.length, db.buffers.2)
                     else (db.buffers.1, some db.heap.length))) := by
  unfold DoubleBuffer.Store at h
  by_cases hp : db.pos = -1
  · simp only [hp, ne_eq, not_true_eq_false, if_false] at h
    obtain ⟨h1, h2, h3, h4⟩ := Store_finish db db1 i 0 e (Or.inl rfl) h
    refine Or.inr ⟨h1, Or.inl hp, ?_, h3, ?_⟩
    · simp [hp, h2]
    · simp [h2, h4]
  · simp only [ne_eq, hp, not_false_eq_true, if_true] at h
    have hnp : (1 - db.pos = 0 ∨ 1 - db.pos = 1) ∨ db.slot (1 - db.pos) = none := by
      unfold DoubleBuffer.slot
      by_cases a : 1 - db.pos = 0
      · exact Or.inl (Or.inl a)
      · by_cases c : 1 - db.pos = 1
        · exact Or.inl (Or.inr c)
        · simp [a, c]
    rcases hnp with hnp | hnone
    · have hpos : db.pos = 0 ∨ db.pos = 1 := by omega
      have fin : ∀ (hh : (match db.AddBuffer i (1 - db.pos) with
          | (some e, db1) => some (some e, db1)
          | (none, db1) => some (none, { db1 with pos := 1 - db.pos })) = some (e, db1)),
          (e = none ∧ (db.pos = -1 ∨ db.pos = 0 ∨ db.pos = 1) ∧
            db1.pos = (if db.pos = -1 then 0 else 1 - db.pos) ∧
            db1.heap = db.heap ++ [{ Interface := i, ServerNum := 0 }] ∧
            db1.buffers = (if db1.pos = 0 then (some db.heap.length, db.buffers.2)
                     else (db.buffers.1, some db.heap.length))) := by
        intro hh
        obtain ⟨h1, h2, h3, h4⟩ := Store_finish db db1 i (1 - db.pos) e hnp hh
        refine ⟨h1, Or.inr hpos, ?_, h3, ?_⟩
        · simp [hp, h2]
        · rw [h2, h4]
      cases hs : db.slot (1 - db.pos) with
      | none => simp [hs] at h
      | some o =>
        cases o with
        | none =>
          simp only [hs] at h
          exact Or.inr (fin h)
        | some p =>
          simp only [hs] at h
          cases hb : db.heap[p]? with
          | none => simp [hb] at h
          | some b =>
            simp only [hb] at h
            by_cases hz : b.ServerNum = 0
            · simp only [hz, ne_eq, not_true_eq_false, if_false] at h
              exact Or.inr (fin h)
            · simp only [ne_eq, hz, not_false_eq_true, if_true, Option.some.injEq,
                Prod.mk.injEq] at h
              exact Or.inl ⟨h.1.symm, h.2.symm, hpos, p, b, rfl, hb, hz⟩
    · simp [hnone] at h

/-- C2: whenever `Store i` returns nil, the target slot `np` is 0 if `pos = -1` and
`1 - pos` otherwise; afterwards `pos = np`, slot `np` points to a newly allocated
handle holding `i` with borrower count 0, the other slot holds the pointer it held
before, and every handle that existed before keeps its resource and count. -/
theorem Store_success {ι : Type} (db db1 : DoubleBuffer ι) (i : ι)
    (h : db.Store i = some (none, db1)) :
    (db1.pos = 0 ∨ db1.pos = 1) ∧
    db1.pos = (if db.pos = -1 then 0 else 1 - db.pos) ∧
    db1.slot db1.pos = some (some db.heap.length) ∧
    db.heap[db.heap.length]? = none ∧
    db1.heap[db.heap.length]? = some { Interface := i, ServerNum := 0 } ∧
    db1.slot (1 - db1.pos) = db.slot (1 - db1.pos) ∧
    (∀ (q : Nat) (b : Buffer ι), db.heap[q]? = some b → db1.heap[q]? = some b) := by
  rcases Store_cases db db1 i none h with ⟨h1, _⟩ | ⟨_, hpos, hnp, hheap, hbuf⟩
  · simp at h1
  · have h01 : db1.pos = 0 ∨ db1.pos = 1 := by
      rw [hnp]; split <;> omega
    refine ⟨h01, hnp, ?_, by simp, by simp [hheap], ?_, ?_⟩
    · rcases h01 with h0 | h0 <;> simp [DoubleBuffer.slot, h0, hbuf]
    · rcases h01 with h0 | h0 <;> simp [DoubleBuffer.slot, h0, hbuf]
    · intro q b hq
      have hlt : q < db.heap.length := by
        rcases Nat.lt_or_ge q db.heap.length with hl | hl
        · exact hl
        · rw [List.getElem?_eq_none hl] at hq; simp at hq
      rw [hheap, List.getElem?_append_left hlt]; exact hq

theorem Store_success_witness :
    busyFree.Store 9 = some (none, busyFreeStored) ∧
    busyFreeStored.pos = (if busyFree.pos = -1 then 0 else 1 - busyFree.pos) ∧
    busyFreeStored.slot busyFreeStored.pos = some (some busyFree.heap.length) ∧
    busyFreeStored.heap[busyFree.heap.length]? = some { Interface := 9, ServerNum := 0 } ∧
    busyFreeStored.slot (1 - busyFreeStored.pos) = busyFree.slot (1 - busyFreeStored.pos) :=
  have h := Store_success busyFree busyFreeStored 9 (by decide)
  ⟨by decide, h.2.1, h.2.2.1, h.2.2.2.2.1, h.2.2.2.2.2.1⟩

theorem Store_ok {ι : Type} (db : DoubleBuffer ι) (i : ι)
    (hc : db.pos = -1 ∨ ((db.pos = 0 ∨ db.pos = 1) ∧ (db.slot (1 - db.pos) = some none ∨
      ∃ p b, db.slot (1 - db.pos) = some (some p) ∧ db.heap[p]? = some b ∧
        b.ServerNum = 0))) :
    ∃ db1, db.Store i = some (none, db1) := by
  unfold DoubleBuffer.Store
  rcases hc with hp | ⟨hpos, hs⟩
  · obtain ⟨w, hw⟩ := AddBuffer_ok db i 0 (Or.inl rfl)
    simp [hp, hw]
  · have h1 : db.pos ≠ -1 := by omega
    obtain ⟨w, hw⟩ := AddBuffer_ok db i (1 - db.pos) (by omega)
    rcases hs with hs | ⟨p, b, hs, hb, hz⟩
    · simp [h1, hs, hw]
    · simp [h1, hs, hb, hz, hw]

/-- In every reachable state `pos` is -1, 0 or 1 and the slots point into the heap. -/
theorem Reachable_inv {ι : Type} (db : DoubleBuffer ι) (hr : db.Reachable) :
    (db.pos = -1 ∨ db.pos = 0 ∨ db.pos = 1) ∧
    (∀ p, (db.buffers.1 = some p ∨ db.buffers.2 = some p) → p < db.heap.length) := by
  induction hr with
  | new => exact ⟨Or.inl rfl, by simp [NewDoubleBuffer]⟩
  | @store db db1 i e _ hs ih =>
    rcases Store_cases db db1 i e hs with ⟨_, h2, _⟩ | ⟨_, hpos, hnp, hheap, hbuf⟩
    · rw [h2]; exact ih
    · refine ⟨by rw [hnp]; split <;> omega, ?_⟩
      intro p hp
      rw [hheap, List.length_append]
      rw [hbuf] at hp
      split at hp
      · rcases hp with hp | hp
        · simp only [Option.some.injEq] at hp; simp [← hp]
        · have := ih.2 p (Or.inr hp); simp; omega
      · rcases hp with hp | hp
        · have := ih.2 p (Or.inl hp); simp; omega
        · simp only [Option.some.injEq] at hp; simp [← hp]
  | @load db db1 t _ hl ih =>
    unfold DoubleBuffer.Load at hl
    split at hl
    · simp only [Option.some.injEq, Prod.mk.injEq] at hl
      rw [← hl.2]; exact ih
    · split at hl
      · simp at hl
      · simp at hl
      · split at hl
        · simp at hl
        · simp only [Option.some.injEq, Prod.mk.injEq] at hl
          rw [← hl.2]
          exact ⟨ih.1, by simpa using ih.2⟩
  | @close db db1 b _ hc ih =>
    unfold DoubleBuffer.Close Buffer.Close at hc
    split at hc
    · simp at hc
    · rename_i h hh
      split at hh
      · simp at hh
      · split at hh
        · simp at hh
        · split at hh
          · simp only [Option.some.injEq] at hh hc
            rw [← hc, ← hh]
            exact ⟨ih.1, by simpa using ih.2⟩
          · simp only [Option.some.injEq] at hh hc
            rw [← hc, ← hh]
            exact ih

theorem storedBorrowed_reachable : storedBorrowed.Reachable :=
  DoubleBuffer.Reachable.load (some 0)
    (DoubleBuffer.Reachable.store 7 none DoubleBuffer.Reachable.new
      (by decide : (NewDoubleBuffer Nat).Store 7 = some (none,
        { heap := [{ Interface := 7, ServerNum := 0 }], buffers := (some 0, none), pos := 0,
          watchers := [] })))
    (by decide)

/-- C3: in every state reachable from `NewDoubleBuffer` by `Store`, `Load` and `Close`,
`Store i` returns nil if nothing is active, or the slot complementary to the active
one is empty, or it holds a handle with borrower count 0; more generally whenever
that slot does not hold a handle with a non-zero count. In particular two
consecutive `Store` calls on a new buffer both return nil and leave `pos = 1`. -/
theorem Store_succeeds_when_free {ι : Type} (db : DoubleBuffer ι) (hr : db.Reachable)
    (i : ι) :
    ((db.pos = -1 ∨ db.slot (1 - db.pos) = some none ∨
        (∃ p b, db.slot (1 - db.pos) = some (some p) ∧ db.heap[p]? = some b ∧
          b.ServerNum = 0)) →
      ∃ db1, db.Store i = some (none, db1)) ∧
    ((∀ (p : Nat) (b : Buffer ι), db.slot (1 - db.pos) = some (some p) →
        db.heap[p]? = some b → b.ServerNum = 0) →
      ∃ db1, db.Store i = some (none, db1)) ∧
    (∀ j k : ι, ∃ db1 db2, (NewDoubleBuffer ι).Store j = some (none, db1) ∧
      db1.Store k = some (none, db2) ∧ db2.pos = 1) := by
  obtain ⟨hpos, hptr⟩ := Reachable_inv db hr
  have key : (∀ (p : Nat) (b : Buffer ι), db.slot (1 - db.pos) = some (some p) →
        db.heap[p]? = some b → b.ServerNum = 0) →
      ∃ db1, db.Store i = some (none, db1) := by
    intro hc
    apply Store_ok
    rcases hpos with h | h
    · exact Or.inl h
    · refine Or.inr ⟨h, ?_⟩
      have hsl : ∃ o, db.slot (1 - db.pos) = some o ∧
          (∀ p, o = some p → p < db.heap.length) := by
        rcases h with h | h
        · exact ⟨db.buffers.2, by simp [DoubleBuffer.slot, h],
            fun p hp => hptr p (Or.inr hp)⟩
        · exact ⟨db.buffers.1, by simp [DoubleBuffer.slot, h],
            fun p hp => hptr p (Or.inl hp)⟩
      obtain ⟨o, ho, hlt⟩ := hsl
      cases o with
      | none => exact Or.inl ho
      | some p =>
        have hp := hlt p rfl
        have hb : db.heap[p]? = some (db.heap[p]) := List.getElem?_eq_getElem hp
        exact Or.inr ⟨p, db.heap[p], ho, hb, hc p _ ho hb⟩
  refine ⟨?_, key, ?_⟩
  · intro hc
    apply key
    intro p b hs hb
    rcases hc with h | h | ⟨q, c, hq, hc1, hz⟩
    · simp [DoubleBuffer.slot, h] at hs
    · rw [h] at hs; simp at hs
    · rw [hq] at hs
      simp only [Option.some.injEq] at hs
      subst hs
      rw [hc1] at hb
      simp only [Option.some.injEq] at hb
      subst hb
      exact hz
  · intro j k
    obtain ⟨db1, h1⟩ := Store_ok (NewDoubleBuffer ι) j (Or.inl rfl)
    rcases Store_cases _ _ _ _ h1 with ⟨hx, _⟩ | ⟨_, _, hnp1, _, hbuf1⟩
    · simp at hx
    have p1 : db1.pos = 0 := by simpa [NewDoubleBuffer] using hnp1
    have sl : db1.slot (1 - db1.pos) = some none := by
      simp [DoubleBuffer.slot, p1, hbuf1, NewDoubleBuffer]
    obtain ⟨db2, h2⟩ := Store_ok db1 k (Or.inr ⟨Or.inl p1, Or.inl sl⟩)
    rcases Store_cases _ _ _ _ h2 with ⟨hx, _⟩ | ⟨_, _, hnp2, _, _⟩
    · simp at hx
    refine ⟨db1, db2, h1, h2, ?_⟩
    rw [hnp2, p1]; simp

theorem Store_succeeds_when_free_witness :
    storedBorrowed.Reachable ∧ storedBorrowed.slot (1 - storedBorrowed.pos) = some none ∧
    (∃ db1, storedBorrowed.Store 9 = some (none, db1)) :=
  ⟨storedBorrowed_reachable, by decide,
    (Store_succeeds_when_free storedBorrowed storedBorrowed_reachable 9).1
      (Or.inr (Or.inl (by decide)))⟩

theorem wrap32_succ (n : Int) (h1 : -2147483648 ≤ n) (h2 : n < 2147483647) :
    wrap32 (n + 1) = n + 1 := by
  unfold wrap32
  omega

theorem Load_active {ι : Type} (db : DoubleBuffer ι) (p : Nat) (b : Buffer ι)
    (hs : db.slot db.pos = some (some p)) (hb : db.heap[p]? = some b) :
    db.Load = some (some p,
      { db with heap := db.heap.set p { b with ServerNum := wrap32 (b.ServerNum + 1) } }) := by
  have hp : db.pos ≠ -1 := by
    intro h
    rw [h] at hs
    simp [DoubleBuffer.slot] at hs
  simp [DoubleBuffer.Load, hp, hs, hb]

/-- C4, counterexample: with borrower count 2147483647 on the active handle, `Load`
returns the handle with count -2147483648, not 2147483648. -/
theorem Load_count_wraps :
    maxedBuffer.slot maxedBuffer.pos = some (some 0) ∧
    maxedBuffer.heap[0]? = some { Interface := 7, ServerNum := 2147483647 } ∧
    maxedBuffer.Load = some (some 0,
      { heap := [{ Interface := 7, ServerNum := -2147483648 }], buffers := (some 0, none),
        pos := 0, watchers := [] }) ∧
    ¬ ∃ db1, maxedBuffer.Load = some (some 0, db1) ∧
        db1.heap[0]? = some { Interface := 7, ServerNum := 2147483647 + 1 } := by
  refine ⟨by decide, by decide, by decide, ?_⟩
  rintro ⟨db1, h1, h2⟩
  have h3 : maxedBuffer.Load = some (some 0,
      { heap := [{ Interface := 7, ServerNum := -2147483648 }], buffers := (some 0, none),
        pos := 0, watchers := [] }) := by decide
  rw [h3] at h1
  simp only [Option.some.injEq, Prod.mk.injEq, true_and] at h1
  subst h1
  revert h2
  decide

/-- C4, amended: if `pos = -1`, `Load` returns nil and changes nothing; otherwise, when
the active slot holds a handle `h` with an `int32` borrower count `n < 2147483647`,
`Load` returns `h` and the only change of the state is that the count of `h` is
`n + 1`: pos, both slots, the resource of `h` and every other handle are as before. -/
theorem Load_spec {ι : Type} (db : DoubleBuffer ι) :
    (db.pos = -1 → db.Load = some (none, db)) ∧
    (∀ (p : Nat) (b : Buffer ι), db.slot db.pos = some (some p) → db.heap[p]? = some b →
      -2147483648 ≤ b.ServerNum → b.ServerNum < 2147483647 →
      ∃ db1, db.Load = some (some p, db1) ∧
        db1.heap[p]? = some { Interface := b.Interface, ServerNum := b.ServerNum + 1 } ∧
        db1.pos = db.pos ∧ db1.buffers = db.buffers ∧ db1.watchers = db.watchers ∧
        db1.heap.length = db.heap.length ∧
        (∀ q : Nat, q ≠ p → db1.heap[q]? = db.heap[q]?)) := by
  constructor
  · intro h
    simp [DoubleBuffer.Load, h]
  · intro p b hs hb h1 h2
    refine ⟨_, Load_active db p b hs hb, ?_, rfl, rfl, rfl, by simp, ?_⟩
    · have hlt : p < db.heap.length := by
        rcases Nat.lt_or_ge p db.heap.length with hl | hl
        · exact hl
        · rw [List.getElem?_eq_none hl] at hb; simp at hb
      simp [wrap32_succ _ h1 h2, hlt]
    · intro q hq
      simp [List.getElem?_set, Ne.symm hq]

theorem Load_spec_witness :
    (NewDoubleBuffer Nat).Load = some (none, NewDoubleBuffer Nat) ∧
    ∃ db1, storedBorrowed.Load = some (some 0, db1) ∧
      db1.heap[0]? = some { Interface := 7, ServerNum := 1 + 1 } ∧
      db1.pos = storedBorrowed.pos ∧ db1.buffers = storedBorrowed.buffers ∧
      db1.watchers = storedBorrowed.watchers ∧
      db1.heap.length = storedBorrowed.heap.length ∧
      (∀ q : Nat, q ≠ 0 → db1.heap[q]? = storedBorrowed.heap[q]?) :=
  ⟨(Load_spec (NewDoubleBuffer Nat)).1 (by decide),
   (Load_spec storedBorrowed).2 0 { Interface := 7, ServerNum := 1 } (by decide) (by decide)
     (by decide) (by decide)⟩

theorem set_same {α : Type} (l : List α) (p : Nat) (b : α) (hb : l[p]? = some b) :
    l.set p b = l := by
  apply List.ext_getElem?
  intro q
  rw [List.getElem?_set]
  split
  · rename_i h
    subst h
    split
    · exact hb.symm
    · rename_i hl
      rw [List.getElem?_eq_none (Nat.le_of_not_lt hl)]
  · rfl

theorem lt_of_getElem? {α : Type} (l : List α) (p : Nat) (b : α) (hb : l[p]? = some b) :
    p < l.length := by
  rcases Nat.lt_or_ge p l.length with hl | hl
  · exact hl
  · rw [List.getElem?_eq_none hl] at hb; simp at hb

/-- Borrow then release: for a handle with a count in `0 ≤ n < 2147483647`, `Close`
after the increment of `Load` gives back the heap before the borrow. -/
theorem Close_after_incr {ι : Type} (heap : List (Buffer ι)) (p : Nat) (b : Buffer ι)
    (hb : heap[p]? = some b) (h0 : 0 ≤ b.ServerNum) (h1 : b.ServerNum < 2147483647) :
    Buffer.Close (heap.set p { b with ServerNum := wrap32 (b.ServerNum + 1) }) (some p)
      = some heap := by
  have hlt := lt_of_getElem? heap p b hb
  rw [wrap32_succ _ (by omega) h1]
  have hpos : b.ServerNum + 1 > 0 := by omega
  simp only [Buffer.Close, List.getElem?_set_self hlt, hpos, if_true, List.set_set,
    Int.add_sub_cancel]
  rw [set_same heap p _ hb]

/-- C5: `Buffer.Close` is a decrement floored at zero. For a handle with count
`n > 0` the count becomes `n - 1` and nothing else changes; with count 0 nothing
changes. For an active handle with count 0, `Load` then `Close` gives back the
state before, and a second `Close` leaves it again unchanged. A count that is not
negative before `Close` is not negative after. -/
theorem Close_floored_decrement {ι : Type} (db : DoubleBuffer ι) (p : Nat) (b : Buffer ι)
    (hb : db.heap[p]? = some b) :
    (b.ServerNum > 0 → Buffer.Close db.heap (some p) =
      some (db.heap.set p { Interface := b.Interface, ServerNum := b.ServerNum - 1 })) ∧
    (b.ServerNum = 0 → Buffer.Close db.heap (some p) = some db.heap) ∧
    (b.ServerNum = 0 → db.slot db.pos = some (some p) →
      ∃ db1, db.Load = some (some p, db1) ∧
        db1.heap[p]? = some { Interface := b.Interface, ServerNum := 1 } ∧
        db1.Close (some p) = some db ∧ db.Close (some p) = some db) ∧
    (0 ≤ b.ServerNum → ∃ h1 c, Buffer.Close db.heap (some p) = some h1 ∧
      h1[p]? = some c ∧ c.Interface = b.Interface ∧ 0 ≤ c.ServerNum) := by
  have hlt := lt_of_getElem? db.heap p b hb
  refine ⟨?_, ?_, ?_, ?_⟩
  · intro h
    simp [Buffer.Close, hb, h]
  · intro h
    simp [Buffer.Close, hb, h]
  · intro h hs
    refine ⟨_, Load_active db p b hs hb, ?_, ?_, ?_⟩
    · simp [hlt, h, wrap32]
    · have := Close_after_incr db.heap p b hb (by omega) (by omega)
      simp only [DoubleBuffer.Close, this]
    · simp [DoubleBuffer.Close, Buffer.Close, hb, h]
  · intro h
    by_cases hz : b.ServerNum > 0
    · refine ⟨db.heap.set p { Interface := b.Interface, ServerNum := b.ServerNum - 1 },
        { Interface := b.Interface, ServerNum := b.ServerNum - 1 }, ?_, ?_, rfl, ?_⟩
      · simp [Buffer.Close, hb, hz]
      · simp [hlt]
      · show 0 ≤ b.ServerNum - 1
        omega
    · exact ⟨db.heap, b, by simp [Buffer.Close, hb, hz], hb, rfl, h⟩

theorem Close_floored_decrement_witness :
    (Buffer.Close storedBorrowed.heap (some 0) =
      some (storedBorrowed.heap.set 0 { Interface := 7, ServerNum := 1 - 1 })) ∧
    (∃ db1, storedOnce.Load = some (some 0, db1) ∧
        db1.heap[0]? = some { Interface := 7, ServerNum := 1 } ∧
        db1.Close (some 0) = some storedOnce ∧ storedOnce.Close (some 0) = some storedOnce) :=
  ⟨(Close_floored_decrement storedBorrowed 0 { Interface := 7, ServerNum := 1 }
      (by decide)).1 (by decide),
   (Close_floored_decrement storedOnce 0 { Interface := 7, ServerNum := 0 }
      (by decide)).2.2.1 (by decide) (by decide)⟩

/-! ## Theorems: target.go -/

/-- The borrow and release around a call: `Load` returns the active handle with its
count incremented, and the deferred `Close` leaves a state that differs from the
first one at most in the count `c` of that handle; `c` is the count before when that
count `n` satisfies `0 ≤ n < 2147483647`. -/
theorem borrow_release {ι : Type} (db : DoubleBuffer ι) (p : Nat) (b : Buffer ι)
    (hs : db.slot db.pos = some (some p)) (hb : db.heap[p]? = some b) :
    ∃ db1 c, db.Load = some (some p, db1) ∧
      db1.heap[p]? = some { Interface := b.Interface, ServerNum := wrap32 (b.ServerNum + 1) } ∧
      db1.Close (some p) =
        some { db with heap := db.heap.set p { Interface := b.Interface, ServerNum := c } } ∧
      (0 ≤ b.ServerNum → b.ServerNum < 2147483647 → c = b.ServerNum) := by
  have hlt := lt_of_getElem? db.heap p b hb
  have hg : (db.heap.set p { b with ServerNum := wrap32 (b.ServerNum + 1) })[p]? =
      some { Interface := b.Interface, ServerNum := wrap32 (b.ServerNum + 1) } := by
    simp [hlt]
  by_cases hpos : wrap32 (b.ServerNum + 1) > 0
  · refine ⟨_, wrap32 (b.ServerNum + 1) - 1, Load_active db p b hs hb, hg, ?_, ?_⟩
    · simp only [DoubleBuffer.Close, Buffer.Close, hg, hpos, if_true, List.set_set]
    · intro h0 h1
      rw [wrap32_succ _ (by omega) h1]
      omega
  · refine ⟨_, wrap32 (b.ServerNum + 1), Load_active db p b hs hb, hg, ?_, ?_⟩
    · simp only [DoubleBuffer.Close, Buffer.Close, hg, hpos, if_false]
    · intro h0 h1
      rw [wrap32_succ _ (by omega) h1] at hpos
      omega

theorem set_same_db {ι : Type} (db : DoubleBuffer ι) (p : Nat) (b : Buffer ι)
    (hb : db.heap[p]? = some b) :
    ({ db with heap := db.heap.set p { Interface := b.Interface, ServerNum := b.ServerNum } } :
      DoubleBuffer ι) = db := by
  have : ({ Interface := b.Interface, ServerNum := b.ServerNum } : Buffer ι) = b := rfl
  rw [this, set_same db.heap p b hb]

/-- The value and the effect of `Target.MD5` on a target with an active handle. -/
theorem MD5_eval {ι σ : Type} (I : HotLoader ι σ) (s : Sys ι σ) (p : Nat) (b : Buffer ι)
    (hs : s.target.db.slot s.target.db.pos = some (some p))
    (hb : s.target.db.heap[p]? = some b) :
    ∃ c, Target.MD5 I s = some ((I.MD5 b.Interface s.env).1,
        { target := { s.target with db := { s.target.db with
            heap := s.target.db.heap.set p { Interface := b.Interface, ServerNum := c } } },
          env := (I.MD5 b.Interface s.env).2,
          calls := s.calls ++ [Call.MD5 b.Interface] }) ∧
      (0 ≤ b.ServerNum → b.ServerNum < 2147483647 → c = b.ServerNum) := by
  obtain ⟨db1, c, hl, hg, hc, hr⟩ := borrow_release s.target.db p b hs hb
  refine ⟨c, ?_, hr⟩
  simp only [Target.MD5, hl, hg, hc]

/-- The value and the effect of `Target.Process` on a target with an active handle. -/
theorem Process_eval {ι σ : Type} (I : HotLoader ι σ) (src : Value) (s : Sys ι σ) (p : Nat)
    (b : Buffer ι) (hs : s.target.db.slot s.target.db.pos = some (some p))
    (hb : s.target.db.heap[p]? = some b) :
    ∃ c, Target.Process I src s = some ((I.Process b.Interface src s.env).1,
        { target := { s.target with db := { s.target.db with
            heap := s.target.db.heap.set p { Interface := b.Interface, ServerNum := c } } },
          env := (I.Process b.Interface src s.env).2,
          calls := s.calls ++ [Call.Process b.Interface src] }) ∧
      (0 ≤ b.ServerNum → b.ServerNum < 2147483647 → c = b.ServerNum) := by
  obtain ⟨db1, c, hl, hg, hc, hr⟩ := borrow_release s.target.db p b hs hb
  refine ⟨c, ?_, hr⟩
  simp only [Target.Process, hl, hg, hc]

/-- C6, counterexample: on a target whose active handle has borrower count 2147483647,
`Process` returns what the resource returns but leaves the count at -2147483648:
the increment wraps and the deferred `Close` does not decrement a negative count. -/
theorem Process_count_not_restored :
    (borrowedSys 2147483647).target.db.slot (borrowedSys 2147483647).target.db.pos
      = some (some 0) ∧
    (borrowedSys 2147483647).target.db.heap[0]?
      = some { Interface := some 42, ServerNum := 2147483647 } ∧
    ∃ s1, Target.Process sample (Value.other 1) (borrowedSys 2147483647)
        = some ((Value.other 1, none), s1) ∧
      s1.target.db.heap[0]? = some { Interface := some 42, ServerNum := -2147483648 } ∧
      s1.target.db.heap[0]? ≠ (borrowedSys 2147483647).target.db.heap[0]? := by
  refine ⟨by decide, by decide, ?_⟩
  refine ⟨{ borrowedSys (-2147483648) with
      calls := [Call.Process (some 42) (Value.other 1)] }, ?_, ?_, ?_⟩
  · decide
  · decide
  · decide

/-- C6, amended: on a target whose active handle `h` holds resource `r` with a
borrower count `n`, `0 ≤ n < 2147483647`, `Target.Process src` returns exactly the
pair that `r.Process(src)` returns and `Target.MD5` returns exactly `r.MD5()`,
whatever the error; after either call the whole target (count of `h`, pos, both
slots, every handle, stamp) is as before, and the single call made is the one on
`r`. -/
theorem scoped_borrow {ι σ : Type} (I : HotLoader ι σ) (src : Value) (s : Sys ι σ) (p : Nat)
    (b : Buffer ι) (hs : s.target.db.slot s.target.db.pos = some (some p))
    (hb : s.target.db.heap[p]? = some b) (h0 : 0 ≤ b.ServerNum)
    (h1 : b.ServerNum < 2147483647) :
    Target.Process I src s = some ((I.Process b.Interface src s.env).1,
      { target := s.target, env := (I.Process b.Interface src s.env).2,
        calls := s.calls ++ [Call.Process b.Interface src] }) ∧
    Target.MD5 I s = some ((I.MD5 b.Interface s.env).1,
      { target := s.target, env := (I.MD5 b.Interface s.env).2,
        calls := s.calls ++ [Call.MD5 b.Interface] }) := by
  constructor
  · obtain ⟨c, hc, hr⟩ := Process_eval I src s p b hs hb
    rw [hc, hr h0 h1, set_same_db _ p b hb]
  · obtain ⟨c, hc, hr⟩ := MD5_eval I s p b hs hb
    rw [hc, hr h0 h1, set_same_db _ p b hb]

theorem scoped_borrow_witness :
    Target.Process sample Value.nil (borrowedSys 3) = some ((Value.nil, some "nil input"),
      { target := (borrowedSys 3).target, env := (1, []),
        calls := [Call.Process (some 42) Value.nil] }) ∧
    Target.MD5 sample (borrowedSys 3) = some (42,
      { target := (borrowedSys 3).target, env := (1, []),
        calls := [Call.MD5 (some 42)] }) :=
  scoped_borrow sample Value.nil (borrowedSys 3) 0 { Interface := some 42, ServerNum := 3 }
    (by decide) (by decide) (by decide) (by decide)

/-- The first two steps of `reload`: the factory call and the signature read from the
active resource through `Target.MD5`. -/
theorem reload_read {ι σ : Type} (I : HotLoader ι σ) (s : Sys ι σ) (p : Nat) (b : Buffer ι)
    (hs : s.target.db.slot s.target.db.pos = some (some p))
    (hb : s.target.db.heap[p]? = some b) :
    ∃ c, Target.MD5 I { s with env := (I.creator s.env).2,
                               calls := s.calls ++ [Call.creator (I.creator s.env).1] } =
        some ((I.MD5 b.Interface (I.creator s.env).2).1,
          { target := { s.target with db := { s.target.db with
              heap := s.target.db.heap.set p { Interface := b.Interface, ServerNum := c } } },
            env := (I.MD5 b.Interface (I.creator s.env).2).2,
            calls := s.calls ++ [Call.creator (I.creator s.env).1] ++
              [Call.MD5 b.Interface] }) ∧
      (0 ≤ b.ServerNum → b.ServerNum < 2147483647 → c = b.ServerNum) :=
  MD5_eval I { s with env := (I.creator s.env).2,
                      calls := s.calls ++ [Call.creator (I.creator s.env).1] } p b hs hb

/-- C7, counterexample: the stamp equals the signature 42 read from the active
resource, so `reload` returns "no data changed", but the borrower count 2147483647
of the active handle is -2147483648 afterwards, not restored. -/
theorem reload_skip_count_not_restored :
    (borrowedSys 2147483647).target.stamp = 42 ∧
    (sample.MD5 (some 42) (sample.creator (borrowedSys 2147483647).env).2).1 = 42 ∧
    (borrowedSys 2147483647).target.db.heap[0]?
      = some { Interface := some 42, ServerNum := 2147483647 } ∧
    ∃ s1, Target.reload sample (borrowedSys 2147483647) = some (some "no data changed", s1) ∧
      s1.target.db.heap[0]? = some { Interface := some 42, ServerNum := -2147483648 } ∧
      s1.target ≠ (borrowedSys 2147483647).target := by
  refine ⟨by decide, by decide, by decide, ?_⟩
  refine ⟨{ borrowedSys (-2147483648) with
      env := (2, []), calls := [Call.creator none, Call.MD5 (some 42)] }, ?_, ?_, ?_⟩
  · decide
  · decide
  · decide

/-- C7, amended: on a target whose active handle holds resource `r` with a borrower
count `n`, `0 ≤ n < 2147483647`, if the signature `reload` reads from `r` (after the
factory call) is 0 or equals the stored stamp, then `reload` returns the error
"0 for stamp", respectively "no data changed"; the calls it makes are exactly the
factory call and `r.MD5()`, so neither `Init` nor `Store` is called; and the whole
target (pos, both slots, every handle with its count, stamp) is as before. -/
theorem reload_skip {ι σ : Type} (I : HotLoader ι σ) (s : Sys ι σ) (p : Nat) (b : Buffer ι)
    (hs : s.target.db.slot s.target.db.pos = some (some p))
    (hb : s.target.db.heap[p]? = some b) (h0 : 0 ≤ b.ServerNum)
    (h1 : b.ServerNum < 2147483647)
    (hm : (I.MD5 b.Interface (I.creator s.env).2).1 = 0 ∨
      (I.MD5 b.Interface (I.creator s.env).2).1 = s.target.stamp) :
    Target.reload I s = some
      (some (if (I.MD5 b.Interface (I.creator s.env).2).1 = 0 then "0 for stamp"
             else "no data changed"),
        { target := s.target, env := (I.MD5 b.Interface (I.creator s.env).2).2,
          calls := s.calls ++ [Call.creator (I.creator s.env).1] ++
            [Call.MD5 b.Interface] }) := by
  obtain ⟨c, hc, hr⟩ := reload_read I s p b hs hb
  rw [hr h0 h1, set_same_db _ p b hb] at hc
  simp only [Target.reload, hc]
  by_cases hz : (I.MD5 b.Interface (I.creator s.env).2).1 = 0
  · simp [hz]
  · rcases hm with hm | hm
    · exact absurd hm hz
    · have hz1 : ¬ s.target.stamp = 0 := hm ▸ hz
      simp [hm, hz1]

theorem reload_skip_witness :
    Target.reload sample (borrowedSys 3) = some (some "no data changed",
      { target := (borrowedSys 3).target, env := (2, []),
        calls := [Call.creator none, Call.MD5 (some 42)] }) :=
  reload_skip sample (borrowedSys 3) 0 { Interface := some 42, ServerNum := 3 }
    (by decide) (by decide) (by decide) (by decide) (Or.inr (by decide))

/-- C8, counterexample: after `Load` of the live resource (stamp 42) the data version
moves to 43 and the factory produces a resource of signature 0; `reload` reads 43
from the active resource and publishes the fresh resource: pos goes from 0 to 1 and
the active resource changes. -/
theorem reload_publishes_fresh_zero :
    ∃ s1 s2, Target.Load sample (sampleSys 41 [none, some 0]) = some (none, s1) ∧
      (sample.creator s1.env).1 = some 0 ∧
      (∀ e, (sample.MD5 (some 0) e).1 = 0) ∧
      Target.reload sample s1 = some (none, s2) ∧
      s1.target.db.pos = 0 ∧ s1.target.db.slot 0 = some (some 0) ∧
      s1.target.db.heap[0]? = some { Interface := none, ServerNum := 0 } ∧
      s2.target.db.pos = 1 ∧ s2.target.db.slot 1 = some (some 1) ∧
      s2.target.db.heap[1]? = some { Interface := some 0, ServerNum := 0 } := by
  refine ⟨_, _, rfl, ?_, ?_, rfl, ?_, ?_, ?_, ?_, ?_, ?_⟩
  · decide
  · intro e; rfl
  all_goals decide

/-- C8, amended: on a target with an active handle, whatever its borrower count, the
stored stamp and the resource the factory produces, if the signature `reload` reads
from the currently active resource is 0 then `reload` returns "0 for stamp" without
calling `Init` or `Store`: pos, both slots, the stamp and the resource of the active
handle are as before. -/
theorem reload_zero_no_publish {ι σ : Type} (I : HotLoader ι σ) (s : Sys ι σ) (p : Nat)
    (b : Buffer ι) (hs : s.target.db.slot s.target.db.pos = some (some p))
    (hb : s.target.db.heap[p]? = some b)
    (hm : (I.MD5 b.Interface (I.creator s.env).2).1 = 0) :
    ∃ s1 b1, Target.reload I s = some (some "0 for stamp", s1) ∧
      s1.calls = s.calls ++ [Call.creator (I.creator s.env).1] ++ [Call.MD5 b.Interface] ∧
      s1.target.db.pos = s.target.db.pos ∧ s1.target.db.buffers = s.target.db.buffers ∧
      s1.target.db.slot s1.target.db.pos = some (some p) ∧
      s1.target.db.heap[p]? = some b1 ∧ b1.Interface = b.Interface ∧
      s1.target.stamp = s.target.stamp := by
  obtain ⟨c, hc, _⟩ := reload_read I s p b hs hb
  have hlt := lt_of_getElem? _ p b hb
  have hre : Target.reload I s = some (some "0 for stamp",
      { target := { s.target with db := { s.target.db with
          heap := s.target.db.heap.set p { Interface := b.Interface, ServerNum := c } } },
        env := (I.MD5 b.Interface (I.creator s.env).2).2,
        calls := s.calls ++ [Call.creator (I.creator s.env).1] ++ [Call.MD5 b.Interface] }) := by
    simp only [Target.reload, hc, hm, if_true]
  exact ⟨_, { Interface := b.Interface, ServerNum := c }, hre, rfl, rfl, rfl, hs,
    by simp [hlt], rfl, rfl⟩

theorem reload_zero_no_publish_witness :
    ∃ s1 b1, Target.reload sample (activeSys (some 0) 2 9 [some 5])
        = some (some "0 for stamp", s1) ∧
      s1.calls = [] ++ [Call.creator (some 5)] ++ [Call.MD5 (some 0)] ∧
      s1.target.db.pos = 0 ∧ s1.target.db.buffers = (some 0, none) ∧
      s1.target.db.slot s1.target.db.pos = some (some 0) ∧
      s1.target.db.heap[0]? = some b1 ∧ b1.Interface = some 0 ∧
      s1.target.stamp = 9 :=
  reload_zero_no_publish sample (activeSys (some 0) 2 9 [some 5]) 0
    { Interface := some 0, ServerNum := 2 } (by decide) (by decide) (by decide)

theorem slot_pos_range {ι : Type} (db : DoubleBuffer ι) (k : Int) (o : Option Nat)
    (hs : db.slot k = some o) : k = 0 ∨ k = 1 := by
  unfold DoubleBuffer.slot at hs
  by_cases h0 : k = 0
  · exact Or.inl h0
  · by_cases h1 : k = 1
    · exact Or.inr h1
    · simp [h0, h1] at hs

/-- C9, counterexample. First run: the stamp is 42 and the factory produces a resource
of signature 7, neither 0 nor 42, with `Init` succeeding and slot 1 empty; `reload`
reads 42 from the active resource and returns "no data changed" with the target
unchanged. Second run: `reload` publishes the fresh resource of signature 7, and the
stamp afterwards is 43, the value read from the resource that was active before. -/
theorem reload_decides_on_active_signature :
    (∃ s1 s2, Target.Load sample (sampleSys 0 [some 42, some 7]) = some (none, s1) ∧
      s1.target.stamp = 42 ∧ s1.target.db.pos = 0 ∧ s1.target.db.slot 1 = some none ∧
      (sample.creator s1.env).1 = some 7 ∧ (∀ e, (sample.MD5 (some 7) e).1 = 7) ∧
      (∀ i c e, (sample.Init i c e).1 = none) ∧
      Target.reload sample s1 = some (some "no data changed", s2) ∧
      s2.target = s1.target) ∧
    (∃ s1 s2, Target.Load sample (sampleSys 41 [none, some 7]) = some (none, s1) ∧
      s1.target.stamp = 42 ∧ s1.target.db.pos = 0 ∧ s1.target.db.slot 1 = some none ∧
      (sample.creator s1.env).1 = some 7 ∧
      Target.reload sample s1 = some (none, s2) ∧
      s2.target.db.pos = 1 ∧ s2.target.db.slot 1 = some (some 1) ∧
      s2.target.db.heap[1]? = some { Interface := some 7, ServerNum := 0 } ∧
      s2.target.stamp = 43) := by
  constructor
  · refine ⟨_, _, rfl, ?_, ?_, ?_, ?_, ?_, ?_, rfl, ?_⟩
    · decide
    · decide
    · decide
    · decide
    · intro e; rfl
    · intro i c e; rfl
    · decide
  · refine ⟨_, _, rfl, ?_, ?_, ?_, ?_, rfl, ?_, ?_, ?_, ?_⟩
    all_goals decide

/-- C9, amended: on a target with an active handle holding resource `r`, whose target
slot `1 - pos` is empty or holds a handle with borrower count 0, if the signature `m`
that `reload` reads from `r` is not 0 and differs from the stored stamp and `Init`
of the fresh resource `i` succeeds, then `reload` returns nil; its calls are the
factory call, `r.MD5()`, `i.Init(config)` and exactly one `Store(i)`; afterwards slot
`1 - pos` is active and holds a new handle with resource `i` and borrower count 0,
the slot active before still holds the handle of `r`, and the stored stamp is `m`,
the signature read from `r`. -/
theorem reload_publishes {ι σ : Type} (I : HotLoader ι σ) (s : Sys ι σ) (p : Nat)
    (b : Buffer ι) (hs : s.target.db.slot s.target.db.pos = some (some p))
    (hb : s.target.db.heap[p]? = some b)
    (hfree : s.target.db.slot (1 - s.target.db.pos) = some none ∨
      ∃ q d, s.target.db.slot (1 - s.target.db.pos) = some (some q) ∧
        s.target.db.heap[q]? = some d ∧ d.ServerNum = 0)
    (hm0 : (I.MD5 b.Interface (I.creator s.env).2).1 ≠ 0)
    (hms : (I.MD5 b.Interface (I.creator s.env).2).1 ≠ s.target.stamp)
    (hinit : (I.Init (I.creator s.env).1 s.target.config
      (I.MD5 b.Interface (I.creator s.env).2).2).1 = none) :
    ∃ s1, Target.reload I s = some (none, s1) ∧
      s1.calls = s.calls ++ [Call.creator (I.creator s.env).1] ++ [Call.MD5 b.Interface] ++
        [Call.Init (I.creator s.env).1 s.target.config] ++ [Call.Store (I.creator s.env).1] ∧
      s1.env = (I.Init (I.creator s.env).1 s.target.config
        (I.MD5 b.Interface (I.creator s.env).2).2).2 ∧
      s1.target.db.pos = 1 - s.target.db.pos ∧
      s1.target.db.slot s1.target.db.pos = some (some s.target.db.heap.length) ∧
      s.target.db.heap[s.target.db.heap.length]? = none ∧
      s1.target.db.heap[s.target.db.heap.length]? =
        some { Interface := (I.creator s.env).1, ServerNum := 0 } ∧
      s1.target.db.slot s.target.db.pos = some (some p) ∧
      (∃ b1, s1.target.db.heap[p]? = some b1 ∧ b1.Interface = b.Interface) ∧
      s1.target.stamp = (I.MD5 b.Interface (I.creator s.env).2).1 := by
  obtain ⟨c, hc, hr⟩ := reload_read I s p b hs hb
  have hlt := lt_of_getElem? _ p b hb
  have hpos := slot_pos_range _ _ _ hs
  have hst : ∃ db1, DoubleBuffer.Store ({ s.target.db with
      heap := s.target.db.heap.set p { Interface := b.Interface, ServerNum := c } } :
      DoubleBuffer ι) (I.creator s.env).1 = some (none, db1) := by
    apply Store_ok
    refine Or.inr ⟨hpos, ?_⟩
    rcases hfree with hf | ⟨q, d, hq, hd, hz⟩
    · exact Or.inl hf
    · by_cases hqp : q = p
      · subst hqp
        rw [hb] at hd
        simp only [Option.some.injEq] at hd
        subst hd
        have hc0 : c = 0 := by rw [hr (by omega) (by omega)]; exact hz
        exact Or.inr ⟨q, { Interface := b.Interface, ServerNum := c }, hq, by simp [hlt], hc0⟩
      · exact Or.inr ⟨q, d, hq, by simp [List.getElem?_set, Ne.symm hqp, hd], hz⟩
  obtain ⟨db1, hst⟩ := hst
  have hI : I.Init (I.creator s.env).1 s.target.config
      (I.MD5 b.Interface (I.creator s.env).2).2 = (none,
        (I.Init (I.creator s.env).1 s.target.config
          (I.MD5 b.Interface (I.creator s.env).2).2).2) := Prod.ext hinit rfl
  have hre : Target.reload I s = some (none,
      { target := { s.target with db := db1,
                                  stamp := (I.MD5 b.Interface (I.creator s.env).2).1 },
        env := (I.Init (I.creator s.env).1 s.target.config
          (I.MD5 b.Interface (I.creator s.env).2).2).2,
        calls := s.calls ++ [Call.creator (I.creator s.env).1] ++ [Call.MD5 b.Interface] ++
          [Call.Init (I.creator s.env).1 s.target.config] ++
          [Call.Store (I.creator s.env).1] }) := by
    simp only [Target.reload, hc, hm0, hms, if_false]
    rw [hI]
    simp only [hst]
  rcases Store_cases _ _ _ _ hst with ⟨hx, _⟩ | ⟨_, _, hnp, hheap, hbuf⟩
  · simp at hx
  have hne : s.target.db.pos ≠ -1 := by omega
  simp only [hne, if_false] at hnp
  simp only [List.length_set] at hbuf
  refine ⟨_, hre, rfl, rfl, hnp, ?_, by simp, ?_, ?_, ?_, rfl⟩
  · show db1.slot db1.pos = _
    rcases hpos with h | h <;> simp [DoubleBuffer.slot, hnp, h, hbuf]
  · show db1.heap[_]? = _
    rw [hheap]
    simp
  · show db1.slot _ = _
    rcases hpos with h | h <;>
      simp [DoubleBuffer.slot, hnp, h, hbuf] <;>
      simpa [DoubleBuffer.slot, h] using hs
  · refine ⟨{ Interface := b.Interface, ServerNum := c }, ?_, rfl⟩
    show db1.heap[p]? = _
    rw [hheap, List.getElem?_append_left (by simpa using hlt)]
    simp [hlt]

theorem reload_publishes_witness :
    ∃ s1, Target.reload sample (activeSys none 1 42 [some 7]) = some (none, s1) ∧
      s1.calls = [] ++ [Call.creator (some 7)] ++ [Call.MD5 none] ++
        [Call.Init (some 7) Value.nil] ++ [Call.Store (some 7)] ∧
      s1.env = (2, []) ∧
      s1.target.db.pos = 1 - 0 ∧
      s1.target.db.slot s1.target.db.pos = some (some 1) ∧
      (activeSys none 1 42 [some 7]).target.db.heap[1]? = none ∧
      s1.target.db.heap[1]? = some { Interface := some 7, ServerNum := 0 } ∧
      s1.target.db.slot 0 = some (some 0) ∧
      (∃ b1, s1.target.db.heap[0]? = some b1 ∧ b1.Interface = none) ∧
      s1.target.stamp = 2 :=
  reload_publishes sample (activeSys none 1 42 [some 7]) 0 { Interface := none, ServerNum := 1 }
    (by decide) (by decide) (Or.inl (by decide)) (by decide) (by decide) (by decide)

/-- A `reload` that reads a non-zero signature equal to the stamp from an active handle
without borrowers changes nothing in the target. -/
theorem reload_same_stamp {ι σ : Type} (I : HotLoader ι σ) (s : Sys ι σ) (p : Nat)
    (b : Buffer ι) (hs : s.target.db.slot s.target.db.pos = some (some p))
    (hb : s.target.db.heap[p]? = some b) (hn : b.ServerNum = 0)
    (hm : (I.MD5 b.Interface (I.creator s.env).2).1 = s.target.stamp)
    (hz : s.target.stamp ≠ 0) :
    Target.reload I s = some (some "no data changed",
        { target := s.target, env := (I.MD5 b.Interface (I.creator s.env).2).2,
          calls := s.calls ++ [Call.creator (I.creator s.env).1] ++
            [Call.MD5 b.Interface] }) := by
  obtain ⟨c, hc, hr⟩ := reload_read I s p b hs hb
  rw [hr (by omega) (by omega), set_same_db _ p b hb] at hc
  simp only [Target.reload, hc]
  simp [hm, hz]

theorem Store_new {ι : Type} (i : ι) :
    (NewDoubleBuffer ι).Store i = some (none,
      { heap := [{ Interface := i, ServerNum := 0 }], buffers := (some 0, none), pos := 0,
        watchers := [] }) := by
  simp [DoubleBuffer.Store, NewDoubleBuffer, DoubleBuffer.AddBuffer, DoubleBuffer.setSlot,
    DoubleBuffer.slot]

/-- What a `Load` that returns nil on a new target leaves in the target. -/
theorem Load_new {ι σ : Type} (I : HotLoader ι σ) (cfg : Value) (e0 : σ) (s1 : Sys ι σ)
    (hL : Target.Load I { target := NewTarget ι cfg, env := e0, calls := [] }
      = some (none, s1)) :
    s1.target.db = { heap := [{ Interface := (I.creator e0).1, ServerNum := 0 }],
                     buffers := (some 0, none), pos := 0, watchers := [] } ∧
    s1.target.stamp =
      (I.MD5 (I.creator e0).1 (I.Init (I.creator e0).1 cfg (I.creator e0).2).2).1 ∧
    s1.target.config = cfg ∧ s1.target.success = true := by
  unfold Target.Load at hL
  simp only [NewTarget, Store_new] at hL
  split at hL
  · simp at hL
  · split at hL
    · simp only [Option.some.injEq, Prod.mk.injEq, true_and] at hL
      subst hL
      exact ⟨rfl, rfl, rfl, rfl⟩
    · split at hL
      · split at hL
        · simp only [Option.some.injEq, Prod.mk.injEq, true_and] at hL
          subst hL
          exact ⟨rfl, rfl, rfl, rfl⟩
        · simp at hL
      · split at hL
        · split at hL
          · simp only [Option.some.injEq, Prod.mk.injEq, true_and] at hL
            subst hL
            exact ⟨rfl, rfl, rfl, rfl⟩
          · simp at hL
        · simp only [Option.some.injEq, Prod.mk.injEq, true_and] at hL
          subst hL
          exact ⟨rfl, rfl, rfl, rfl⟩

theorem returned_value_unique {α : Type} (x : Option (Nat × α)) (v w : Nat) (s4 : α)
    (h : x = some (v, s4)) (hvw : v ≠ w) : ¬ ∃ s5, x = some (w, s5) := by
  rintro ⟨s5, h5⟩
  rw [h] at h5
  simp only [Option.some.injEq, Prod.mk.injEq] at h5
  exact hvw h5.1

/-- C10, counterexample: `Load` of a resource with signature 42, then `reload` with the
factory producing signature 42, then `reload` with the factory producing a resource
of signature 7. The second `reload` reads 42 from the active resource, returns
"no data changed" and publishes nothing; `Target.MD5` afterwards returns 42, not 7. -/
theorem scenario_second_reload_skipped :
    ∃ s1 s2 s3 s4, Target.Load sample (sampleSys 0 [some 42, some 42, some 7]) = some (none, s1) ∧
      (sample.creator s1.env).1 = some 42 ∧
      Target.reload sample s1 = some (some "no data changed", s2) ∧
      (sample.creator s2.env).1 = some 7 ∧ (∀ e, (sample.MD5 (some 7) e).1 = 7) ∧
      Target.reload sample s2 = some (some "no data changed", s3) ∧
      s3.target.db.pos = 0 ∧ s3.target.db.slot 0 = some (some 0) ∧
      s3.target.db.heap = [{ Interface := some 42, ServerNum := 0 }] ∧
      Target.MD5 sample s3 = some (42, s4) ∧
      ¬ (∃ s5, Target.MD5 sample s3 = some (7, s5)) := by
  refine ⟨_, _, _, _, rfl, ?_, rfl, ?_, ?_, rfl, ?_, ?_, ?_, rfl, ?_⟩
  · decide
  · decide
  · intro e; rfl
  · decide
  · decide
  · decide
  · exact returned_value_unique _ 42 7 _ rfl (by decide)

/-- C10, amended: after a `Load` that returns nil on a new target, with a first resource
`r` whose signature is always 42, the stamp is 42 and slot 0 is active with `r` and
no borrower; then, whatever resources the factory produces (signature 42, then
signature 7), a first `reload` and a second `reload` both return
"no data changed" and leave the target unchanged, so nothing is published, the
stamp stays 42, and `Target.MD5` afterwards returns 42. -/
theorem scenario_fixed_signature {ι σ : Type} (I : HotLoader ι σ) (cfg : Value) (e0 : σ)
    (s1 : Sys ι σ)
    (hL : Target.Load I { target := NewTarget ι cfg, env := e0, calls := [] }
      = some (none, s1))
    (hsig : ∀ e, (I.MD5 (I.creator e0).1 e).1 = 42) :
    s1.target.stamp = 42 ∧ s1.target.db.pos = 0 ∧
    s1.target.db.slot 0 = some (some 0) ∧
    s1.target.db.heap = [{ Interface := (I.creator e0).1, ServerNum := 0 }] ∧
    ∃ s2 s3 s4, Target.reload I s1 = some (some "no data changed", s2) ∧
      s2.target = s1.target ∧
      Target.reload I s2 = some (some "no data changed", s3) ∧
      s3.target = s1.target ∧
      Target.MD5 I s3 = some (42, s4) ∧ s4.target = s1.target := by
  obtain ⟨hdb, hstamp, _, _⟩ := Load_new I cfg e0 s1 hL
  rw [hsig] at hstamp
  have skip : ∀ s : Sys ι σ, s.target = s1.target →
      ∃ s2, Target.reload I s = some (some "no data changed", s2) ∧
        s2.target = s1.target := by
    intro s ht
    have h := reload_same_stamp I s 0 { Interface := (I.creator e0).1, ServerNum := 0 }
      (by rw [ht, hdb]; rfl) (by rw [ht, hdb]; rfl) rfl
      (by rw [ht, hstamp]; exact hsig _) (by rw [ht, hstamp]; decide)
    exact ⟨_, h, ht⟩
  obtain ⟨s2, h2, t2⟩ := skip s1 rfl
  obtain ⟨s3, h3, t3⟩ := skip s2 t2
  obtain ⟨c, hc, hr⟩ := MD5_eval I s3 0 { Interface := (I.creator e0).1, ServerNum := 0 }
    (by rw [t3, hdb]; rfl) (by rw [t3, hdb]; rfl)
  rw [hr (le_refl (0 : Int)) (by show (0 : Int) < 2147483647; omega), hsig] at hc
  refine ⟨hstamp, by rw [hdb], by rw [hdb]; rfl, by rw [hdb], s2, s3, _, h2, t2, h3, t3, hc, ?_⟩
  show ({ s3.target with db := _ } : Target ι) = s1.target
  rw [set_same_db _ 0 _ (by rw [t3, hdb]; rfl)]
  exact t3

theorem scenario_fixed_signature_witness :
    ∃ s1, Target.Load sample (sampleSys 0 [some 42, some 42, some 7]) = some (none, s1) ∧
      (∀ e, (sample.MD5 (sample.creator (0, [some 42, some 42, some 7])).1 e).1 = 42) ∧
      s1.target.stamp = 42 ∧ s1.target.db.pos = 0 ∧
      s1.target.db.slot 0 = some (some 0) ∧
      s1.target.db.heap = [{ Interface := some 42, ServerNum := 0 }] ∧
      ∃ s2 s3 s4, Target.reload sample s1 = some (some "no data changed", s2) ∧
        s2.target = s1.target ∧
        Target.reload sample s2 = some (some "no data changed", s3) ∧
        s3.target = s1.target ∧
        Target.MD5 sample s3 = some (42, s4) ∧ s4.target = s1.target :=
  ⟨_, rfl, fun _ => rfl,
    scenario_fixed_signature sample Value.nil (0, [some 42, some 42, some 7]) _ rfl
      (fun _ => rfl)⟩

/-- Every result of `reload` on a target with an active handle: the target after an
error differs from the one before at most in the borrower count `c` of the active
handle, which is the count before when that lies in `0 ≤ n < 2147483647`. -/
theorem reload_error_frame {ι σ : Type} (I : HotLoader ι σ) (s : Sys ι σ) (p : Nat)
    (b : Buffer ι) (hs : s.target.db.slot s.target.db.pos = some (some p))
    (hb : s.target.db.heap[p]? = some b) :
    ∃ c, (0 ≤ b.ServerNum → b.ServerNum < 2147483647 → c = b.ServerNum) ∧
      ∀ msg s1, Target.reload I s = some (some msg, s1) →
        s1.target = { s.target with db := { s.target.db with
          heap := s.target.db.heap.set p { Interface := b.Interface, ServerNum := c } } } := by
  obtain ⟨c, hc, hr⟩ := reload_read I s p b hs hb
  refine ⟨c, hr, ?_⟩
  intro msg s1 h
  simp only [Target.reload, hc] at h
  split at h
  · simp only [Option.some.injEq, Prod.mk.injEq] at h
    rw [← h.2]
  · split at h
    · simp only [Option.some.injEq, Prod.mk.injEq] at h
      rw [← h.2]
    · split at h
      · simp only [Option.some.injEq, Prod.mk.injEq] at h
        rw [← h.2]
      · split at h
        · simp at h
        · rename_i e1 db1 hst
          rcases Store_cases _ _ _ _ hst with ⟨_, hdb, _⟩ | ⟨he, _⟩
          · subst hdb
            split at h
            · simp only [Option.some.injEq, Prod.mk.injEq] at h
              rw [← h.2]
            · simp at h
          · subst he
            simp at h

theorem Store_busy_eval {ι : Type} (db : DoubleBuffer ι) (i : ι) (q : Nat) (d : Buffer ι)
    (hpos : db.pos = 0 ∨ db.pos = 1) (hq : db.slot (1 - db.pos) = some (some q))
    (hd : db.heap[q]? = some d) (hn : d.ServerNum ≠ 0) :
    db.Store i = some (some "buffer still in used", db) := by
  have h1 : db.pos ≠ -1 := by omega
  simp [DoubleBuffer.Store, h1, hq, hd, hn]

/-- C11: on a target with an active handle holding resource `r`, every `reload` that
returns a non-nil error leaves the active slot index, both slots, the resource of
every handle, the stamp and the configuration as before (and the whole target when
the borrower count `n` of the active handle satisfies `0 ≤ n < 2147483647`), and
`Process` and `MD5` afterwards are served by `r`. A failing `Init` of the new
resource makes `reload` return "init error[...]", and a busy target slot makes it
return "store error[buffer still in used]". -/
theorem reload_failure_atomic {ι σ : Type} (I : HotLoader ι σ) (s : Sys ι σ) (p : Nat)
    (b : Buffer ι) (hs : s.target.db.slot s.target.db.pos = some (some p))
    (hb : s.target.db.heap[p]? = some b) :
    (∀ msg s1, Target.reload I s = some (some msg, s1) →
      s1.target.db.pos = s.target.db.pos ∧ s1.target.db.buffers = s.target.db.buffers ∧
      s1.target.stamp = s.target.stamp ∧ s1.target.config = s.target.config ∧
      s1.target.db.slot s1.target.db.pos = some (some p) ∧
      (∃ b1, s1.target.db.heap[p]? = some b1 ∧ b1.Interface = b.Interface) ∧
      (∀ q : Nat, q ≠ p → s1.target.db.heap[q]? = s.target.db.heap[q]?) ∧
      (0 ≤ b.ServerNum → b.ServerNum < 2147483647 → s1.target = s.target) ∧
      (∀ src, ∃ s2, Target.Process I src s1 =
        some ((I.Process b.Interface src s1.env).1, s2)) ∧
      (∃ s2, Target.MD5 I s1 = some ((I.MD5 b.Interface s1.env).1, s2))) ∧
    (∀ msg, (I.MD5 b.Interface (I.creator s.env).2).1 ≠ 0 →
      (I.MD5 b.Interface (I.creator s.env).2).1 ≠ s.target.stamp →
      (I.Init (I.creator s.env).1 s.target.config
        (I.MD5 b.Interface (I.creator s.env).2).2).1 = some msg →
      ∃ s1, Target.reload I s = some (some ("init error[" ++ msg ++ "]"), s1)) ∧
    ((I.MD5 b.Interface (I.creator s.env).2).1 ≠ 0 →
      (I.MD5 b.Interface (I.creator s.env).2).1 ≠ s.target.stamp →
      (I.Init (I.creator s.env).1 s.target.config
        (I.MD5 b.Interface (I.creator s.env).2).2).1 = none →
      (∃ q d, q ≠ p ∧ s.target.db.slot (1 - s.target.db.pos) = some (some q) ∧
        s.target.db.heap[q]? = some d ∧ d.ServerNum ≠ 0) →
      ∃ s1, Target.reload I s = some (some "store error[buffer still in used]", s1)) := by
  have hlt := lt_of_getElem? _ p b hb
  refine ⟨?_, ?_, ?_⟩
  · obtain ⟨c, hr, hf⟩ := reload_error_frame I s p b hs hb
    intro msg s1 h
    have ht := hf msg s1 h
    have hs1 : s1.target.db.slot s1.target.db.pos = some (some p) := by rw [ht]; exact hs
    have hb1 : s1.target.db.heap[p]? = some { Interface := b.Interface, ServerNum := c } := by
      rw [ht]; simp [hlt]
    refine ⟨by rw [ht], by rw [ht], by rw [ht], by rw [ht], hs1, ⟨_, hb1, rfl⟩, ?_, ?_, ?_, ?_⟩
    · intro q hq
      rw [ht]
      simp [List.getElem?_set, Ne.symm hq]
    · intro h0 h1
      rw [ht, hr h0 h1, set_same_db _ p b hb]
    · intro src
      obtain ⟨c1, hp, _⟩ := Process_eval I src s1 p _ hs1 hb1
      exact ⟨_, hp⟩
    · obtain ⟨c1, hp, _⟩ := MD5_eval I s1 p _ hs1 hb1
      exact ⟨_, hp⟩
  · intro msg hm0 hms hinit
    obtain ⟨c, hc, _⟩ := reload_read I s p b hs hb
    have hI : I.Init (I.creator s.env).1 s.target.config
        (I.MD5 b.Interface (I.creator s.env).2).2 = (some msg,
          (I.Init (I.creator s.env).1 s.target.config
            (I.MD5 b.Interface (I.creator s.env).2).2).2) := Prod.ext hinit rfl
    simp only [Target.reload, hc, hm0, hms, if_false]
    rw [hI]
    exact ⟨_, rfl⟩
  · intro hm0 hms hinit hbusy
    obtain ⟨q, d, hqp, hq, hd, hn⟩ := hbusy
    obtain ⟨c, hc, _⟩ := reload_read I s p b hs hb
    have hI : I.Init (I.creator s.env).1 s.target.config
        (I.MD5 b.Interface (I.creator s.env).2).2 = (none,
          (I.Init (I.creator s.env).1 s.target.config
            (I.MD5 b.Interface (I.creator s.env).2).2).2) := Prod.ext hinit rfl
    have hst := Store_busy_eval ({ s.target.db with
      heap := s.target.db.heap.set p { Interface := b.Interface, ServerNum := c } } :
      DoubleBuffer ι) (I.creator s.env).1 q d (slot_pos_range _ _ _ hs) hq
      (by simp [List.getElem?_set, Ne.symm hqp, hd]) hn
    simp only [Target.reload, hc, hm0, hms, if_false]
    rw [hI]
    simp only [hst]
    exact ⟨_, rfl⟩

theorem reload_failure_atomic_witness :
    (∃ s1, Target.reload samplePicky (activeSys none 0 42 [some 13])
        = some (some "init error[bad resource]", s1) ∧
      s1.target = (activeSys none 0 42 [some 13]).target) ∧
    (∃ s1, Target.reload sample (busySys [some 7])
        = some (some "store error[buffer still in used]", s1)) :=
  ⟨⟨_, rfl, ((reload_failure_atomic samplePicky (activeSys none 0 42 [some 13]) 0
      { Interface := none, ServerNum := 0 } (by decide) (by decide)).1 _ _ rfl).2.2.2.2.2.2.2.1
      (by decide) (by decide)⟩,
   (reload_failure_atomic sample (busySys [some 7]) 1 { Interface := none, ServerNum := 0 }
      (by decide) (by decide)).2.2 (by decide) (by decide) (by decide)
      ⟨0, { Interface := some 42, ServerNum := 1 }, by decide, by decide, by decide,
        by decide⟩⟩

/-- C12: if `Init(config)` of the resource `i` produced by the factory returns the error
`msg`, then `Load` returns `msg`, calls nothing but the factory and `Init` (no
`Store`, no trigger loop is started) and leaves the target as it was. For a target
created by `NewTarget`: pos stays -1, both slots stay empty, the success flag stays
false, and stamp, strategy and arguments keep their initial values. -/
theorem Load_init_failure {ι σ : Type} (I : HotLoader ι σ) (s : Sys ι σ) (msg : String)
    (h : (I.Init (I.creator s.env).1 s.target.config (I.creator s.env).2).1 = some msg) :
    Target.Load I s = some (some msg,
      { target := s.target,
        env := (I.Init (I.creator s.env).1 s.target.config (I.creator s.env).2).2,
        calls := s.calls ++ [Call.creator (I.creator s.env).1,
          Call.Init (I.creator s.env).1 s.target.config] }) ∧
    (∀ cfg, s.target = NewTarget ι cfg →
      ∃ s1, Target.Load I s = some (some msg, s1) ∧
        s1.target.db.pos = -1 ∧ s1.target.db.buffers = (none, none) ∧
        s1.target.db.heap = [] ∧ s1.target.db.watchers = [] ∧
        s1.target.success = false ∧ s1.target.stamp = 0 ∧ s1.target.ttype = 0 ∧
        s1.target.args = Value.nil ∧ s1.target.config = cfg ∧
        (∀ t a, Call.go t a ∉ s1.calls.drop s.calls.length)) := by
  have hL : Target.Load I s = some (some msg,
      { target := s.target,
        env := (I.Init (I.creator s.env).1 s.target.config (I.creator s.env).2).2,
        calls := s.calls ++ [Call.creator (I.creator s.env).1,
          Call.Init (I.creator s.env).1 s.target.config] }) := by
    simp only [Target.Load, h]
  refine ⟨hL, ?_⟩
  intro cfg hn
  refine ⟨_, hL, ?_⟩
  simp [hn, NewTarget, NewDoubleBuffer]

theorem Load_init_failure_witness :
    Target.Load samplePicky (sampleSys 0 [some 13]) = some (some "bad resource",
      { target := NewTarget (Option Nat) Value.nil, env := (1, []),
        calls := [Call.creator (some 13), Call.Init (some 13) Value.nil] }) :=
  (Load_init_failure samplePicky (sampleSys 0 [some 13]) "bad resource" (by decide)).1

/-- C13, counterexample: the resource's `Init` succeeds and its `ReloadArgument` is
`(TargetTypePeriodic, 5)` with a 5 that is not a `time.Duration`; the type assertion
`target.args.(time.Duration)` in `Load` panics, so `Load` does not return nil. -/
theorem Load_panics_on_untyped_args :
    (∀ i c e, ((sampleArgs (TargetTypePeriodic, Value.other 5)).Init i c e).1 = none) ∧
    (sampleSys 0 [some 42]).target = NewTarget (Option Nat) Value.nil ∧
    Target.Load (sampleArgs (TargetTypePeriodic, Value.other 5)) (sampleSys 0 [some 42])
      = none := by
  refine ⟨?_, rfl, ?_⟩
  · intro i c e; rfl
  · decide

/-- C13, amended: on a target created by `NewTarget` with configuration `cfg`, let the
factory produce `r`, `Init r cfg` succeed, `r.MD5()` read `m` and
`r.ReloadArgument()` return `(tt, args)`, where `args` is a `time.Duration` if `tt`
is `TargetTypePeriodic` and a `[]string` if `tt` is `TargetTypeWatch`. Then `Load`
returns nil and afterwards slot 0 is active and holds `r` with borrower count 0,
slot 1 is empty, the success flag is true, the stamp is `m`, and strategy and
arguments are `tt` and `args`. The calls are the factory, `Init r cfg`, `Store r`,
`MD5`, `ReloadArgument` and the start of one trigger loop of type `tt` (none when
`tt` is not one of the three strategies). -/
theorem Load_success {ι σ : Type} (I : HotLoader ι σ) (cfg : Value) (e0 : σ)
    (calls : List (Call ι)) (r : ι) (e1 e2 e3 e4 : σ) (m : Nat) (tt : TargetType)
    (args : Value) (hc : I.creator e0 = (r, e1)) (hi : I.Init r cfg e1 = (none, e2))
    (hm : I.MD5 r e2 = (m, e3)) (ha : I.ReloadArgument r e3 = ((tt, args), e4))
    (hp : tt = TargetTypePeriodic → ∃ d, args = Value.duration d)
    (hw : tt = TargetTypeWatch → ∃ ps, args = Value.paths ps) :
    Target.Load I { target := NewTarget ι cfg, env := e0, calls := calls } = some (none,
      { target :=
          { db := { heap := [{ Interface := r, ServerNum := 0 }], buffers := (some 0, none),
                    pos := 0, watchers := [] },
            ttype := tt, args := args, success := true, config := cfg, stamp := m },
        env := e4,
        calls := calls ++ [Call.creator r, Call.Init r cfg] ++
          [Call.Store r, Call.MD5 r, Call.ReloadArgument r] ++
          (if tt = TargetTypeListen ∨ tt = TargetTypePeriodic ∨ tt = TargetTypeWatch
           then [Call.go tt args] else []) }) := by
  simp only [Target.Load, hc, hi, hm, ha, NewTarget, Store_new]
  by_cases h2 : tt = TargetTypeListen
  · simp [h2]
  · by_cases h1 : tt = TargetTypePeriodic
    · obtain ⟨d, hd⟩ := hp h1
      subst hd
      simp [h1, TargetTypePeriodic, TargetTypeListen]
    · by_cases h3 : tt = TargetTypeWatch
      · obtain ⟨ps, hps⟩ := hw h3
        subst hps
        simp [h3, TargetTypeWatch, TargetTypePeriodic, TargetTypeListen]
      · simp [h1, h2, h3]

theorem Load_success_witness :
    Target.Load (sampleArgs (TargetTypePeriodic, Value.duration 5)) (sampleSys 7 [some 42])
      = some (none,
      { target :=
          { db := { heap := [{ Interface := some 42, ServerNum := 0 }],
                    buffers := (some 0, none), pos := 0, watchers := [] },
            ttype := TargetTypePeriodic, args := Value.duration 5, success := true,
            config := Value.nil, stamp := 42 },
        env := (8, []),
        calls := [] ++ [Call.creator (some 42), Call.Init (some 42) Value.nil] ++
          [Call.Store (some 42), Call.MD5 (some 42), Call.ReloadArgument (some 42)] ++
          (if TargetTypePeriodic = TargetTypeListen ∨ TargetTypePeriodic = TargetTypePeriodic
              ∨ TargetTypePeriodic = TargetTypeWatch
           then [Call.go TargetTypePeriodic (Value.duration 5)] else []) }) :=
  Load_success (sampleArgs (TargetTypePeriodic, Value.duration 5)) Value.nil (7, [some 42]) []
    (some 42) (8, []) (8, []) (8, []) (8, []) 42 TargetTypePeriodic (Value.duration 5)
    rfl rfl rfl rfl (fun _ => ⟨5, rfl⟩) (fun h => absurd h (by decide))

/-! ## Theorems: retirement goroutines -/

/-- C14, failing run: `Store 1`, a borrow `h := Load()`, `Store 2` (which starts the
retirement goroutine for slot 0, where resource 1 still has a borrower), `h.Close()`,
and `Store 3` before that goroutine's next iteration: slot 0 is free, so resource 3
goes to slot 0 and becomes active. The next iteration of the goroutine started for
resource 1 reads slot 0 again, finds the handle of resource 3 with count 0 and sets
the slot to nil: the active slot is empty and `Load` dereferences nil. -/
theorem watch_clears_active_slot :
    ∃ db1 db2 db3 db4 db5 db6 : DoubleBuffer Nat,
      (NewDoubleBuffer Nat).Store 1 = some (none, db1) ∧
      db1.Load = some (some 0, db2) ∧
      db2.Store 2 = some (none, db3) ∧ db3.watchers = [1] ∧
      db3.poll 0 = some db3 ∧
      db3.Close (some 0) = some db4 ∧
      db4.Store 3 = some (none, db5) ∧
      db5.pos = 0 ∧ db5.slot 0 = some (some 2) ∧
      db5.heap[2]? = some { Interface := 3, ServerNum := 0 } ∧ db5.watchers = [1, 0] ∧
      db5.poll 0 = some db6 ∧
      db6.ReachableWatch ∧
      db6.pos = 0 ∧ db6.slot db6.pos = some none ∧ db6.Load = none := by
  refine ⟨_, _, _, _, _, _, rfl, rfl, rfl, ?_, ?_, rfl, rfl, ?_, ?_, ?_, ?_, rfl, ?_, ?_, ?_, ?_⟩
  · decide
  · decide
  · decide
  · decide
  · decide
  · decide
  · exact DoubleBuffer.ReachableWatch.poll 0
      (DoubleBuffer.ReachableWatch.store 3 none
        (DoubleBuffer.ReachableWatch.close (some 0)
          (DoubleBuffer.ReachableWatch.store 2 none
            (DoubleBuffer.ReachableWatch.load (some 0)
              (DoubleBuffer.ReachableWatch.store 1 none DoubleBuffer.ReachableWatch.new rfl)
              rfl)
            rfl)
          rfl)
        rfl)
      (by decide) rfl
  · decide
  · decide
  · decide

/-- C15: on a new buffer, `Store A`, then `h := Load()`, then `Store B`. Both `Store`
calls return nil; after the second, slot 1 is active and holds `B` with count 0, `h`
(pointer 0) is still in slot 0 and refers to `A` with borrower count 1, and one
retirement goroutine is pending. Any number of iterations of that goroutine while `h`
is held leave the whole state unchanged. After `h.Close()` the count of `A` is 0 and
the next iteration sets slot 0 to nil and ends the goroutine, leaving slot 1 active
with `B` and count 0. -/
theorem borrow_across_publish {ι : Type} (A B : ι) :
    ∃ db1 db2 db3 db4 db5 : DoubleBuffer ι,
      (NewDoubleBuffer ι).Store A = some (none, db1) ∧
      db1.Load = some (some 0, db2) ∧
      db2.Store B = some (none, db3) ∧
      db3.pos = 1 ∧ db3.slot 1 = some (some 1) ∧
      db3.heap[1]? = some { Interface := B, ServerNum := 0 } ∧
      db3.slot 0 = some (some 0) ∧
      db3.heap[0]? = some { Interface := A, ServerNum := 1 } ∧
      db3.watchers = [1] ∧
      (∀ n, db3.polls 0 n = some db3) ∧
      db3.Close (some 0) = some db4 ∧
      db4.heap[0]? = some { Interface := A, ServerNum := 0 } ∧
      db4.poll 0 = some db5 ∧
      db5.slot 0 = some none ∧ db5.watchers = [] ∧
      db5.pos = 1 ∧ db5.slot 1 = some (some 1) ∧
      db5.heap[1]? = some { Interface := B, ServerNum := 0 } := by
  refine ⟨_, _, _, _, _, rfl, rfl, rfl, rfl, rfl, rfl, rfl, rfl, rfl, ?_, rfl, rfl, rfl, rfl,
    rfl, rfl, rfl, rfl⟩
  intro n
  induction n with
  | zero => rfl
  | succ n ih =>
    simp only [DoubleBuffer.polls, ih]
    rfl

/-! ## Theorems: sequential well-formedness -/

/-- In every state reachable by `Store`, `Load` and `Close`, `pos = -1` exactly when the
heap of handles is empty, then both slots are nil, and otherwise the active slot
points into the heap. -/
theorem Reachable_active {ι : Type} (db : DoubleBuffer ι) (hr : db.Reachable) :
    (db.pos = -1 ↔ db.heap.length = 0) ∧
    (db.pos = -1 → db.buffers = (none, none)) ∧
    (db.pos ≠ -1 → ∃ p, db.slot db.pos = some (some p) ∧ p < db.heap.length) := by
  induction hr with
  | new => simp [NewDoubleBuffer]
  | @store db db1 i e _ hs ih =>
    rcases Store_cases db db1 i e hs with ⟨_, h2, _⟩ | ⟨_, hpos, hnp, hheap, hbuf⟩
    · rw [h2]; exact ih
    · have h01 : db1.pos = 0 ∨ db1.pos = 1 := by rw [hnp]; split <;> omega
      have hne : db1.pos ≠ -1 := by omega
      refine ⟨by simp [hne, hheap], fun h => absurd h hne, fun _ => ⟨db.heap.length, ?_, ?_⟩⟩
      · rcases h01 with h | h <;> simp [DoubleBuffer.slot, h, hbuf]
      · simp [hheap]
  | @load db db1 t _ hl ih =>
    unfold DoubleBuffer.Load at hl
    split at hl
    · simp only [Option.some.injEq, Prod.mk.injEq] at hl
      rw [← hl.2]; exact ih
    · split at hl
      · simp at hl
      · simp at hl
      · split at hl
        · simp at hl
        · simp only [Option.some.injEq, Prod.mk.injEq] at hl
          rw [← hl.2]
          simpa [DoubleBuffer.slot] using ih
  | @close db db1 b _ hc ih =>
    unfold DoubleBuffer.Close Buffer.Close at hc
    split at hc
    · simp at hc
    · rename_i h hh
      split at hh
      · simp at hh
      · split at hh
        · simp at hh
        · split at hh
          · simp only [Option.some.injEq] at hh hc
            rw [← hc, ← hh]
            simpa [DoubleBuffer.slot] using ih
          · simp only [Option.some.injEq] at hh hc
            rw [← hc, ← hh]
            exact ih

/-- Without overflow every borrower count is non-negative. -/
theorem NoOverflow_counts {ι : Type} (db : DoubleBuffer ι) (hr : db.ReachableNoOverflow) :
    ∀ b ∈ db.heap, 0 ≤ b.ServerNum := by
  induction hr with
  | new => simp [NewDoubleBuffer]
  | @store db db1 i e _ hs ih =>
    rcases Store_cases db db1 i e hs with ⟨_, h2, _⟩ | ⟨_, _, _, hheap, _⟩
    · rw [h2]; exact ih
    · intro b hb
      rw [hheap, List.mem_append] at hb
      rcases hb with hb | hb
      · exact ih b hb
      · simp only [List.mem_singleton] at hb
        rw [hb]
  | @load db db1 t _ hno hl ih =>
    unfold DoubleBuffer.Load at hl
    split at hl
    · simp only [Option.some.injEq, Prod.mk.injEq] at hl
      rw [← hl.2]; exact ih
    · split at hl
      · simp at hl
      · simp at hl
      · rename_i p hsl
        split at hl
        · simp at hl
        · rename_i c hc
          simp only [Option.some.injEq, Prod.mk.injEq] at hl
          rw [← hl.2]
          intro b hb
          rcases List.mem_or_eq_of_mem_set hb with hb | hb
          · exact ih b hb
          · have h0 := ih c (List.getElem?_mem hc)
            have h1 := hno p c hsl hc
            rw [hb]
            show 0 ≤ wrap32 (c.ServerNum + 1)
            rw [wrap32_succ _ (by omega) h1]
            omega
  | @close db db1 b _ hc ih =>
    unfold DoubleBuffer.Close Buffer.Close at hc
    split at hc
    · simp at hc
    · rename_i h hh
      split at hh
      · simp at hh
      · split at hh
        · simp at hh
        · rename_i c hcc
          split at hh
          · rename_i hpos
            simp only [Option.some.injEq] at hh hc
            rw [← hc, ← hh]
            intro b hb
            rcases List.mem_or_eq_of_mem_set hb with hb | hb
            · exact ih b hb
            · rw [hb]
              show 0 ≤ c.ServerNum - 1
              omega
          · simp only [Option.some.injEq] at hh hc
            rw [← hc, ← hh]
            exact ih

theorem active_zero_bound (db : DoubleBuffer Nat) (c : Buffer Nat)
    (hs : db.slot db.pos = some (some 0)) (hc : db.heap[0]? = some c)
    (hlt : c.ServerNum < 2147483647) :
    ∀ (p : Nat) (b : Buffer Nat), db.slot db.pos = some (some p) → db.heap[p]? = some b →
      b.ServerNum < 2147483647 := by
  intro p b hp hb
  rw [hs] at hp
  simp only [Option.some.injEq] at hp
  subst hp
  rw [hc] at hb
  simp only [Option.some.injEq] at hb
  subst hb
  exact hlt

theorem twoStored_reachable : twoStored.Reachable ∧ twoStored.ReachableNoOverflow := by
  have s1 : (NewDoubleBuffer Nat).Store 7 = some (none, storedOnce) := by decide
  have l1 : storedOnce.Load = some (some 0, storedBorrowed) := by decide
  have l2 : storedBorrowed.Load = some (some 0, storedBorrowedTwice) := by decide
  have c1 : storedBorrowedTwice.Close (some 0) = some storedBorrowed := by decide
  have s2 : storedBorrowed.Store 8 = some (none, twoStored) := by decide
  constructor
  · exact .store 8 none (.close (some 0) (.load (some 0) (.load (some 0)
      (.store 7 none .new s1) l1) l2) c1) s2
  · exact .store 8 none (.close (some 0) (.load (some 0) (.load (some 0)
      (.store 7 none .new s1)
      (active_zero_bound storedOnce { Interface := 7, ServerNum := 0 } (by decide) (by decide)
        (by decide)) l1)
      (active_zero_bound storedBorrowed { Interface := 7, ServerNum := 1 } (by decide)
        (by decide) (by decide)) l2) c1) s2

/-- C17: in every state reachable from `NewDoubleBuffer` by `Store`, `Load` and `Close`
calls (no retirement goroutine runs), `pos` is -1, 0 or 1; `pos = -1` exactly when no
handle has been allocated, that is nothing has been stored, and then both slots are
nil; if `pos` is 0 or 1 the active slot holds a handle; and when the state is reached
without 32-bit overflow every borrower count is at least 0. Consequently `Store`
always returns, with nil or "buffer still in used" and never with "wrong pos to add
buffer", and `Load` always returns, without a nil dereference. -/
theorem sequential_wellformed {ι : Type} (db : DoubleBuffer ι) (hr : db.Reachable) :
    (db.pos = -1 ∨ db.pos = 0 ∨ db.pos = 1) ∧
    (db.pos = -1 ↔ db.heap = []) ∧
    (db.pos = -1 → db.slot 0 = some none ∧ db.slot 1 = some none) ∧
    (db.pos ≠ -1 → ∃ p b, db.slot db.pos = some (some p) ∧ db.heap[p]? = some b) ∧
    (db.ReachableNoOverflow → ∀ (p : Nat) (b : Buffer ι), db.heap[p]? = some b →
      0 ≤ b.ServerNum) ∧
    (∀ i, ∃ e db1, db.Store i = some (e, db1) ∧
      (e = none ∨ e = some "buffer still in used") ∧ e ≠ some "wrong pos to add buffer") ∧
    (∃ t db1, db.Load = some (t, db1) ∧ (t = none ↔ db.pos = -1)) := by
  obtain ⟨hpos, hptr⟩ := Reachable_inv db hr
  obtain ⟨hlen, hempty, hact⟩ := Reachable_active db hr
  have hactive : db.pos ≠ -1 → ∃ p b, db.slot db.pos = some (some p) ∧ db.heap[p]? = some b := by
    intro h
    obtain ⟨p, hp, hlt⟩ := hact h
    exact ⟨p, db.heap[p], hp, List.getElem?_eq_getElem hlt⟩
  refine ⟨hpos, ?_, ?_, hactive, ?_, ?_, ?_⟩
  · rw [hlen]; exact List.length_eq_zero
  · intro h
    have := hempty h
    simp [DoubleBuffer.slot, this]
  · intro hno p b hb
    exact NoOverflow_counts db hno b (List.getElem?_mem hb)
  · intro i
    have hres : ∃ e db1, db.Store i = some (e, db1) ∧
        (e = none ∨ e = some "buffer still in used") := by
      rcases hpos with h | h
      · obtain ⟨db1, h1⟩ := Store_ok db i (Or.inl h)
        exact ⟨none, db1, h1, Or.inl rfl⟩
      · have hsl : ∃ o, db.slot (1 - db.pos) = some o ∧
            (∀ p, o = some p → p < db.heap.length) := by
          rcases h with h | h
          · exact ⟨db.buffers.2, by simp [DoubleBuffer.slot, h],
              fun p hp => hptr p (Or.inr hp)⟩
          · exact ⟨db.buffers.1, by simp [DoubleBuffer.slot, h],
              fun p hp => hptr p (Or.inl hp)⟩
        obtain ⟨o, ho, hlt⟩ := hsl
        cases o with
        | none =>
          obtain ⟨db1, h1⟩ := Store_ok db i (Or.inr ⟨h, Or.inl ho⟩)
          exact ⟨none, db1, h1, Or.inl rfl⟩
        | some q =>
          have hex : ∃ d, db.heap[q]? = some d :=
            ⟨_, List.getElem?_eq_getElem (hlt q rfl)⟩
          obtain ⟨d, hq⟩ := hex
          by_cases hz : d.ServerNum = 0
          · obtain ⟨db1, h1⟩ := Store_ok db i (Or.inr ⟨h, Or.inr ⟨q, d, ho, hq, hz⟩⟩)
            exact ⟨none, db1, h1, Or.inl rfl⟩
          · exact ⟨_, db, Store_busy_eval db i q d h ho hq hz, Or.inr rfl⟩
    obtain ⟨e, db1, h1, h2⟩ := hres
    refine ⟨e, db1, h1, h2, ?_⟩
    rcases h2 with h2 | h2 <;> rw [h2] <;> decide
  · by_cases h : db.pos = -1
    · exact ⟨none, db, by simp [DoubleBuffer.Load, h], by simp [h]⟩
    · obtain ⟨p, b, hp, hb⟩ := hactive h
      exact ⟨some p, _, Load_active db p b hp hb, by simp [h]⟩

theorem sequential_wellformed_witness :
    twoStored.Reachable ∧ twoStored.ReachableNoOverflow ∧
    (twoStored.pos = -1 ∨ twoStored.pos = 0 ∨ twoStored.pos = 1) ∧
    (∃ p b, twoStored.slot twoStored.pos = some (some p) ∧ twoStored.heap[p]? = some b) ∧
    (∀ (p : Nat) (b : Buffer Nat), twoStored.heap[p]? = some b → 0 ≤ b.ServerNum) ∧
    (∃ t db1, twoStored.Load = some (t, db1) ∧ (t = none ↔ twoStored.pos = -1)) :=
  have h := sequential_wellformed twoStored twoStored_reachable.1
  ⟨twoStored_reachable.1, twoStored_reachable.2, h.1, h.2.2.2.1 (by decide),
    h.2.2.2.2.1 twoStored_reachable.2, h.2.2.2.2.2.2⟩

/-! ## Theorems: fixed signatures, Load -/

/-- A `reload` that reads 0 or the stamp from an active handle without borrowers returns
an error after the factory call and the signature read, with the target unchanged. -/
theorem reload_skip_eval {ι σ : Type} (I : HotLoader ι σ) (s : Sys ι σ) (p : Nat)
    (b : Buffer ι) (hs : s.target.db.slot s.target.db.pos = some (some p))
    (hb : s.target.db.heap[p]? = some b) (hn : b.ServerNum = 0)
    (hm : (I.MD5 b.Interface (I.creator s.env).2).1 = 0 ∨
      (I.MD5 b.Interface (I.creator s.env).2).1 = s.target.stamp) :
    ∃ msg, (msg = "0 for stamp" ∨ msg = "no data changed") ∧
      Target.reload I s = some (some msg,
        { target := s.target, env := (I.MD5 b.Interface (I.creator s.env).2).2,
          calls := s.calls ++ [Call.creator (I.creator s.env).1] ++
            [Call.MD5 b.Interface] }) := by
  obtain ⟨c, hc, hr⟩ := reload_read I s p b hs hb
  rw [hr (by omega) (by omega), set_same_db _ p b hb] at hc
  by_cases hz : (I.MD5 b.Interface (I.creator s.env).2).1 = 0
  · refine ⟨"0 for stamp", Or.inl rfl, ?_⟩
    simp only [Target.reload, hc, hz, if_true]
  · rcases hm with hm | hm
    · exact absurd hm hz
    · refine ⟨"no data changed", Or.inr rfl, ?_⟩
      have hz1 : ¬ s.target.stamp = 0 := hm ▸ hz
      simp only [Target.reload, hc, hm, hz1, if_false, if_true]

/-- With fixed signatures, a step `Process`, `MD5` or `reload` from a target in the
state left by `Load` (one handle without borrowers in slot 0, stamp equal to its
signature) leaves the target unchanged. -/
theorem fixed_signature_step {ι σ : Type} (I : HotLoader ι σ) (sig : ι → Nat)
    (hsig : ∀ i e, (I.MD5 i e).1 = sig i) (r : ι) (s : Sys ι σ)
    (hdb : s.target.db =
      { heap := [{ Interface := r, ServerNum := 0 }], buffers := (some 0, none), pos := 0,
        watchers := [] })
    (hst : s.target.stamp = sig r) :
    (∀ src res s1, Target.Process I src s = some (res, s1) → s1.target = s.target) ∧
    (∀ m s1, Target.MD5 I s = some (m, s1) → s1.target = s.target ∧ m = sig r) ∧
    (∀ e s1, Target.reload I s = some (e, s1) → s1.target = s.target ∧
      (e = some "0 for stamp" ∨ e = some "no data changed") ∧
      s1.calls = s.calls ++ [Call.creator (I.creator s.env).1] ++ [Call.MD5 r]) ∧
    (∃ msg s1, Target.reload I s = some (some msg, s1)) := by
  have hs : s.target.db.slot s.target.db.pos = some (some 0) := by rw [hdb]; rfl
  have hb : s.target.db.heap[0]? = some { Interface := r, ServerNum := 0 } := by rw [hdb]; rfl
  have h0 : (0 : Int) ≤ ({ Interface := r, ServerNum := 0 } : Buffer ι).ServerNum := le_refl _
  have h1 : ({ Interface := r, ServerNum := 0 } : Buffer ι).ServerNum < 2147483647 := by
    show (0 : Int) < 2147483647
    omega
  obtain ⟨msg, hmsg, hre⟩ := reload_skip_eval I s 0 _ hs hb rfl
    (Or.inr (by rw [hst]; exact hsig _ _))
  refine ⟨?_, ?_, ?_, ⟨msg, _, hre⟩⟩
  · intro src res s1 h
    obtain ⟨c, hc, hr⟩ := Process_eval I src s 0 _ hs hb
    rw [hr h0 h1, set_same_db _ 0 _ hb, h] at hc
    simp only [Option.some.injEq, Prod.mk.injEq] at hc
    rw [hc.2]
  · intro m s1 h
    obtain ⟨c, hc, hr⟩ := MD5_eval I s 0 _ hs hb
    rw [hr h0 h1, set_same_db _ 0 _ hb, h] at hc
    simp only [Option.some.injEq, Prod.mk.injEq] at hc
    rw [hc.2, hc.1]
    exact ⟨rfl, hsig _ _⟩
  · intro e s1 h
    rw [hre] at h
    simp only [Option.some.injEq, Prod.mk.injEq] at h
    rw [← h.1, ← h.2]
    refine ⟨rfl, ?_, rfl⟩
    rcases hmsg with hm | hm <;> simp [hm]

/-- C18: let every resource have a fixed signature, `MD5` of resource `i` returning
`sig i` in every state of the user code. Then in every system reachable from a
`Load` that returned nil on a new target by `Process`, `MD5` and `reload` calls, the
target is the one `Load` left: the resource `r` published by `Load` is active in slot
0 and the stamp equals its signature. Every `reload` there returns, with the error
"0 for stamp" or "no data changed", calls only the factory and `r.MD5()` (no `Init`,
no `Store`) and leaves the target unchanged, whatever the factory produces. -/
theorem fixed_signature_never_reloads {ι σ : Type} (I : HotLoader ι σ) (sig : ι → Nat)
    (hsig : ∀ i e, (I.MD5 i e).1 = sig i) (cfg : Value) (e0 : σ) (s0 s : Sys ι σ)
    (hL : Target.Load I { target := NewTarget ι cfg, env := e0, calls := [] }
      = some (none, s0))
    (hr : Target.ReachableFrom I s0 s) :
    s.target = s0.target ∧
    s.target.db.pos = 0 ∧ s.target.db.slot 0 = some (some 0) ∧
    s.target.db.heap = [{ Interface := (I.creator e0).1, ServerNum := 0 }] ∧
    s.target.stamp = sig (I.creator e0).1 ∧
    (∃ msg s1, Target.reload I s = some (some msg, s1)) ∧
    (∀ e s1, Target.reload I s = some (e, s1) →
      (e = some "0 for stamp" ∨ e = some "no data changed") ∧ s1.target = s.target ∧
      s1.calls = s.calls ++ [Call.creator (I.creator s.env).1] ++
        [Call.MD5 (I.creator e0).1]) := by
  obtain ⟨hdb, hstamp, _, _⟩ := Load_new I cfg e0 s0 hL
  rw [hsig] at hstamp
  have hinv : s.target = s0.target := by
    induction hr with
    | start => rfl
    | @process s s1 src res _ h ih =>
      have := (fixed_signature_step I sig hsig _ s (by rw [ih, hdb]) (by rw [ih, hstamp])).1
        src res s1 h
      rw [this, ih]
    | @md5 s s1 m _ h ih =>
      have := ((fixed_signature_step I sig hsig _ s (by rw [ih, hdb])
        (by rw [ih, hstamp])).2.1 m s1 h).1
      rw [this, ih]
    | @reload s s1 e _ h ih =>
      have := ((fixed_signature_step I sig hsig _ s (by rw [ih, hdb])
        (by rw [ih, hstamp])).2.2.1 e s1 h).1
      rw [this, ih]
  have hstep := fixed_signature_step I sig hsig _ s (by rw [hinv, hdb]) (by rw [hinv, hstamp])
  refine ⟨hinv, by rw [hinv, hdb], by rw [hinv, hdb]; rfl, by rw [hinv, hdb],
    by rw [hinv, hstamp], hstep.2.2.2, ?_⟩
  intro e s1 h
  obtain ⟨h1, h2, h3⟩ := hstep.2.2.1 e s1 h
  exact ⟨h2, h1, h3⟩

theorem fixed_signature_never_reloads_witness :
    ∃ s0 s, Target.Load sampleFixed (sampleSys 0 [some 42, some 7, some 9]) = some (none, s0) ∧
      Target.ReachableFrom sampleFixed s0 s ∧
      (sampleFixed.creator s.env).1 = some 9 ∧
      s.target.stamp = 42 ∧
      (∃ msg s1, Target.reload sampleFixed s = some (some msg, s1)) :=
  ⟨_, _, rfl, Target.ReachableFrom.reload (some "no data changed") Target.ReachableFrom.start rfl,
    by decide,
    (fixed_signature_never_reloads sampleFixed (fun i => i.getD 0) (fun _ _ => rfl) Value.nil
      (0, [some 42, some 7, some 9]) _ _ rfl
      (Target.ReachableFrom.reload (some "no data changed") Target.ReachableFrom.start
        rfl)).2.2.2.2.1,
    (fixed_signature_never_reloads sampleFixed (fun i => i.getD 0) (fun _ _ => rfl) Value.nil
      (0, [some 42, some 7, some 9]) _ _ rfl
      (Target.ReachableFrom.reload (some "no data changed") Target.ReachableFrom.start
        rfl)).2.2.2.2.2.1⟩

/-- C19, counterexample: `Load`, a borrow through `db.Load()`, a second `Load`, and a
third `Load` whose `Init` succeeds and whose `Store` fails on the busy slot 0. The
third resource declares `TargetTypeWatch` with an argument that is not a `[]string`:
the type assertion panics and `Load` does not return nil. -/
theorem Load_busy_panics_on_untyped_args :
    ∃ s1 db1 s2, Target.Load sampleMixed (sampleSys 0 [some 1, some 2, some 5])
        = some (none, s1) ∧
      s1.target.db.Load = some (some 0, db1) ∧
      Target.Load sampleMixed { s1 with target := { s1.target with db := db1 } }
        = some (none, s2) ∧
      (sampleMixed.creator s2.env).1 = some 5 ∧
      (∀ i c e, (sampleMixed.Init i c e).1 = none) ∧
      s2.target.db.Store (some 5) = some (some "buffer still in used", s2.target.db) ∧
      Target.Load sampleMixed s2 = none := by
  refine ⟨_, _, _, rfl, rfl, rfl, ?_, ?_, ?_, ?_⟩
  · decide
  · intro i c e; rfl
  · decide
  · decide

/-- C19, amended: name `r` the resource the factory produces, `ie` the result of
`Init r config`, `m` the signature read from `r` and `(tt, args)` its reload
argument. Every value `Load` returns is `ie`. If `ie` is an error, `Load` returns it
and leaves the target unchanged. If `ie` is nil, `Store r` returns `se` (nil or an
error) with the buffer `db1`, and `args` is a `time.Duration` for
`TargetTypePeriodic` and a `[]string` for `TargetTypeWatch`, then `Load` returns nil
whatever `se` is, and the target afterwards has the buffer `db1`, success true, stamp
`m`, strategy `tt` and arguments `args`; when `se` is an error, `db1` is the buffer
before the call, so the active slot and resource are unchanged and `r` is not
published. -/
theorem Load_returns_Init_result {ι σ : Type} (I : HotLoader ι σ) (s : Sys ι σ) (r : ι)
    (e1 e2 e3 e4 : σ) (ie : Option String) (m : Nat) (tt : TargetType) (args : Value)
    (hc : I.creator s.env = (r, e1)) (hi : I.Init r s.target.config e1 = (ie, e2))
    (hm : I.MD5 r e2 = (m, e3)) (ha : I.ReloadArgument r e3 = ((tt, args), e4)) :
    (∀ e s1, Target.Load I s = some (e, s1) → e = ie) ∧
    (ie ≠ none → ∃ s1, Target.Load I s = some (ie, s1) ∧ s1.target = s.target) ∧
    (ie = none → ∀ se db1, s.target.db.Store r = some (se, db1) →
      (tt = TargetTypePeriodic → ∃ d, args = Value.duration d) →
      (tt = TargetTypeWatch → ∃ ps, args = Value.paths ps) →
      ∃ s1, Target.Load I s = some (none, s1) ∧
        s1.target = { db := db1, ttype := tt, args := args, success := true,
                      config := s.target.config, stamp := m } ∧
        (se ≠ none → db1 = s.target.db)) := by
  refine ⟨?_, ?_, ?_⟩
  · intro e s1 h
    cases ie with
    | some msg =>
      simp only [Target.Load, hc, hi, Option.some.injEq, Prod.mk.injEq] at h
      exact h.1.symm
    | none =>
      simp only [Target.Load, hc, hi, hm, ha] at h
      split at h
      · simp at h
      · split at h
        · simp only [Option.some.injEq, Prod.mk.injEq] at h
          exact h.1.symm
        · split at h
          · split at h
            · simp only [Option.some.injEq, Prod.mk.injEq] at h
              exact h.1.symm
            · simp at h
          · split at h
            · split at h
              · simp only [Option.some.injEq, Prod.mk.injEq] at h
                exact h.1.symm
              · simp at h
            · simp only [Option.some.injEq, Prod.mk.injEq] at h
              exact h.1.symm
  · intro hne
    cases hie : ie with
    | none => exact absurd hie hne
    | some msg =>
      rw [hie] at hi
      simp only [Target.Load, hc, hi]
      exact ⟨_, rfl, rfl⟩
  · intro hnone se db1 hst hp hw
    subst hnone
    have hsame : se ≠ none → db1 = s.target.db := by
      intro hse
      rcases Store_cases _ _ _ _ hst with ⟨_, h2, _⟩ | ⟨h1, _⟩
      · exact h2
      · exact absurd h1 hse
    simp only [Target.Load, hc, hi, hm, ha, hst]
    by_cases h2 : tt = TargetTypeListen
    · simp only [h2, if_true]
      exact ⟨_, rfl, rfl, hsame⟩
    · by_cases h1 : tt = TargetTypePeriodic
      · obtain ⟨d, hd⟩ := hp h1
        subst hd
        simp only [h2, h1, if_true, if_false]
        exact ⟨_, rfl, rfl, hsame⟩
      · by_cases h3 : tt = TargetTypeWatch
        · obtain ⟨ps, hps⟩ := hw h3
          subst hps
          simp only [h2, h1, h3, if_true, if_false]
          exact ⟨_, rfl, rfl, hsame⟩
        · simp only [h2, h1, h3, if_false]
          exact ⟨_, rfl, rfl, hsame⟩

theorem Load_returns_Init_result_witness :
    (busySys [some 5]).target.db.Store (some 5)
      = some (some "buffer still in used", (busySys [some 5]).target.db) ∧
    ∃ s1, Target.Load sample (busySys [some 5]) = some (none, s1) ∧
      s1.target = { db := (busySys [some 5]).target.db, ttype := TargetTypeListen,
                    args := Value.nil, success := true, config := Value.nil, stamp := 5 } ∧
      (some "buffer still in used" ≠ none →
        (busySys [some 5]).target.db = (busySys [some 5]).target.db) :=
  ⟨by decide,
   (Load_returns_Init_result sample (busySys [some 5]) (some 5) (2, []) (2, []) (2, []) (2, [])
      none 5 TargetTypeListen Value.nil rfl rfl rfl rfl).2.2 rfl
      (some "buffer still in used") (busySys [some 5]).target.db (by decide)
      (fun h => absurd h (by decide)) (fun h => absurd h (by decide))⟩

end Hotload
